import Mathlib

/-! sql-query-hub-backend: statement splitter and query orchestrator

A shallow embedding of `src/utils/file.utils.js` (`FileUtils.readSqlFile`,
`FileUtils.writeCountFile`) and `src/utils/db.utils.js` (`DatabaseUtils`), followed by
theorems about them.

JavaScript strings are embedded as `List Char` inside the splitter (all of its regular
expressions look at one character at a time and none distinguishes a code point from its
UTF-16 code units) and as `String` in the orchestrator, which only concatenates and
compares them.
-/

set_option autoImplicit false

namespace FileUtils

/-! ## Character classes of the regular expressions -/

/-- The characters matched by `\s` and removed by `String.prototype.trim`:
ECMAScript WhiteSpace and LineTerminator. -/
def isWhiteSpace (c : Char) : Bool :=
  c.toNat = 0x09 || c.toNat = 0x0A || c.toNat = 0x0B || c.toNat = 0x0C || c.toNat = 0x0D ||
  c.toNat = 0x20 || c.toNat = 0xA0 || c.toNat = 0x1680 ||
  (0x2000 ≤ c.toNat && c.toNat ≤ 0x200A) ||
  c.toNat = 0x2028 || c.toNat = 0x2029 || c.toNat = 0x202F || c.toNat = 0x205F ||
  c.toNat = 0x3000 || c.toNat = 0xFEFF

/-- ECMAScript LineTerminator: the characters `.` does not match. -/
def isLineTerminator (c : Char) : Bool :=
  c.toNat = 0x0A || c.toNat = 0x0D || c.toNat = 0x2028 || c.toNat = 0x2029

/-- The characters of `\w`, which decide where `\b` holds. -/
def isWordChar (c : Char) : Bool :=
  c.isAlphanum || c = '_'

/-! ## A small regular-expression matcher

Only `RegExp.prototype.test` is used by the splitter, so the matcher computes the set of
all ways a pattern can match at a position; greediness plays no part. -/

/-- The regular-expression constructs that occur in `readSqlFile`. -/
inductive Regex where
  /-- A literal character under the `i` flag: compared after ASCII upper-casing. -/
  | lit (c : Char)
  /-- A character class. -/
  | cls (p : Char → Bool)
  /-- The assertion `\b`. -/
  | wordBoundary
  /-- The empty pattern. -/
  | eps
  /-- Concatenation. -/
  | seq (a b : Regex)
  /-- Alternation `a|b`. -/
  | alt (a b : Regex)
  /-- Repetition `a*`. -/
  | star (a : Regex)

/-- A position in the subject: the character just before it, and the rest of the text. -/
abbrev Pos := Option Char × List Char

/-- All positions reachable from `st` by zero or more rounds of `step`, every round
consuming at least one character; `fuel` bounds the number of rounds. -/
def starRun (step : Pos → List Pos) : Nat → Pos → List Pos
  | 0, st => [st]
  | fuel + 1, st =>
    st :: ((step st).filter (fun st1 => st1.2.length < st.2.length)).flatMap (starRun step fuel)

/-- Whether `\b` holds between the previous character and the next one. -/
def atWordBoundary (st : Pos) : Bool :=
  let before := match st.1 with
    | some c => isWordChar c
    | none => false
  let after := match st.2 with
    | c :: _ => isWordChar c
    | [] => false
  before != after

/-- All positions at which a match of the pattern starting at `st` can end. -/
def Regex.run : Regex → Pos → List Pos
  | .lit c, st =>
    match st.2 with
    | x :: xs => if x.toUpper = c.toUpper then [(some x, xs)] else []
    | [] => []
  | .cls p, st =>
    match st.2 with
    | x :: xs => if p x then [(some x, xs)] else []
    | [] => []
  | .wordBoundary, st => if atWordBoundary st then [st] else []
  | .eps, st => [st]
  | .seq a b, st => (a.run st).flatMap (fun st1 => b.run st1)
  | .alt a b, st => a.run st ++ b.run st
  | .star a, st => starRun (fun st1 => a.run st1) st.2.length st

/-- Whether the pattern matches at some position of the text at or after `st`. -/
def Regex.testFrom (r : Regex) : Option Char → List Char → Bool
  | prev, [] => !(r.run (prev, [])).isEmpty
  | prev, c :: cs => !(r.run (prev, c :: cs)).isEmpty || Regex.testFrom r (some c) cs

/-- The method `RegExp.prototype.test` for a pattern without the `g` flag. -/
def Regex.test (r : Regex) (s : List Char) : Bool :=
  r.testFrom none s

/-- A literal word, character by character. -/
def Regex.word : List Char → Regex
  | [] => .eps
  | c :: cs => .seq (.lit c) (Regex.word cs)

/-- The quantifier `a+`. -/
def Regex.plus (a : Regex) : Regex := .seq a (.star a)

/-- The quantifier `a?`. -/
def Regex.opt (a : Regex) : Regex := .alt a .eps

/-- The class `\s`. -/
def Regex.ws : Regex := .cls isWhiteSpace

/-- The class of every character but the backtick (U+0060). -/
def Regex.notBacktick : Regex := .cls (fun c => c.toNat != 0x60)

/-- The backtick (U+0060) as a literal. -/
def Regex.backtick : Regex := .cls (fun c => c.toNat == 0x60)

/-- The group `(DEFINER\s*=\s*BT[^BT]+BT\s*@\s*BT[^BT]+BT\s*)` of the opener pattern,
where BT stands for the backtick. -/
def definerClause : Regex :=
  .seq (Regex.word "DEFINER".toList) <| .seq (.star .ws) <| .seq (.lit '=') <|
  .seq (.star .ws) <| .seq .backtick <| .seq (Regex.plus .notBacktick) <| .seq .backtick <|
  .seq (.star .ws) <| .seq (.lit '@') <| .seq (.star .ws) <| .seq .backtick <|
  .seq (Regex.plus .notBacktick) <| .seq .backtick (.star .ws)

/-- The pattern `/CREATE\s+(DEFINER...)?\s*(TRIGGER|PROCEDURE)/i` of line 76. -/
def createOpener : Regex :=
  .seq (Regex.word "CREATE".toList) <| .seq (Regex.plus .ws) <|
  .seq (Regex.opt definerClause) <| .seq (.star .ws) <|
  .alt (Regex.word "TRIGGER".toList) (Regex.word "PROCEDURE".toList)

/-- The pattern `/END\s*\$\$/i` of line 82. -/
def endDollars : Regex :=
  .seq (Regex.word "END".toList) <| .seq (.star .ws) <| .seq (.lit '$') (.lit '$')

/-- The pattern `/END\b/i` of line 88. -/
def endWord : Regex :=
  .seq (Regex.word "END".toList) .wordBoundary

/-! ## String helpers -/

/-- The method `String.prototype.split` with a one-character separator. -/
def split (sep : Char) : List Char → List (List Char)
  | [] => [[]]
  | c :: cs =>
    if c = sep then [] :: split sep cs
    else
      match split sep cs with
      | [] => [[c]]
      | piece :: pieces => (c :: piece) :: pieces

/-- The method `String.prototype.trim`. -/
def trim (s : List Char) : List Char :=
  ((s.dropWhile isWhiteSpace).reverse.dropWhile isWhiteSpace).reverse

/-- Whether the comment pattern (two dashes, `.*`, `$`) matches starting exactly here:
two dashes, then no line terminator up to the end of the text (`$` without the `m` flag
is the end of the text). -/
def commentToEnd : List Char → Bool
  | '-' :: '-' :: rest => rest.all (fun c => !isLineTerminator c)
  | _ => false

/-- Line 55, `line.replace` of the comment pattern by `''`: cut the line at the leftmost
match. -/
def stripLineComment : List Char → List Char
  | [] => []
  | c :: cs => if commentToEnd (c :: cs) then [] else c :: stripLineComment cs

/-- The call `.replace(/\s+/g, ' ')`: every maximal run of white space becomes one
space. `inRun` tells that the previous character was white space. -/
def collapseWhiteSpace (inRun : Bool) : List Char → List Char
  | [] => []
  | c :: cs =>
    if isWhiteSpace c then
      if inRun then collapseWhiteSpace true cs else ' ' :: collapseWhiteSpace true cs
    else c :: collapseWhiteSpace false cs

/-- The call `.replace(/pat/g, '')` for a literal, non-empty `pat`: delete the
occurrences of `pat` found scanning left to right, resuming after each one. `skip` counts
the characters of the current occurrence still to be deleted. -/
def removeAll (pat : List Char) : Nat → List Char → List Char
  | _, [] => []
  | skip + 1, _ :: cs => removeAll pat skip cs
  | 0, c :: cs =>
    if pat.isPrefixOf (c :: cs) then removeAll pat (pat.length - 1) cs
    else c :: removeAll pat 0 cs

/-- The method `Array.prototype.join`. -/
def join (sep : List Char) (pieces : List (List Char)) : List Char :=
  sep.intercalate pieces

/-! ## `FileUtils.readSqlFile` -/

/-- Lines 53-64: strip line comments, drop blank lines, normalise white space, remove
the delimiter directives. -/
def normalize (sqlFileData : List Char) : List Char :=
  let lines := ((split '\n' sqlFileData).map stripLineComment).filter (fun line => trim line != [])
  let joined := join [' '] lines
  let noTabs := joined.map (fun c => if c = '\t' then ' ' else c)
  let collapsed := collapseWhiteSpace false noTabs
  -- `.replace(/^\s+|\s+$/g, '')` removes the leading and the trailing run of white space
  let trimmed := trim collapsed
  let d1 := removeAll "DELIMITER $$".toList 0 trimmed
  let d2 := removeAll "DELIMITER ".toList 0 d1
  let d3 := removeAll "//".toList 0 d2
  removeAll "&&".toList 0 d3

/-- Line 69: the candidate statements. -/
def candidates (sqlFileData : List Char) : List (List Char) :=
  ((split ';' sqlFileData).map trim).filter (fun query => query != [])

/-- The variables of the loop of lines 71-98. -/
structure SplitState where
  resultQueries : List (List Char)
  complexStatements : List (List Char)
  inComplexStatement : Bool

/-- One iteration of the loop of lines 75-98. -/
def splitStep (st : SplitState) (query : List Char) : SplitState :=
  let inComplexStatement := if createOpener.test query then true else st.inComplexStatement
  if inComplexStatement then
    let pushed := st.complexStatements ++ [query]
    if endDollars.test query then
      let closed := pushed.dropLast ++ ["END".toList]
      { resultQueries := st.resultQueries ++ [join "; ".toList closed ++ [';']]
        complexStatements := []
        inComplexStatement := false }
    else if endWord.test query && trim query == "END".toList then
      { resultQueries := st.resultQueries ++ [join "; ".toList pushed ++ [';']]
        complexStatements := []
        inComplexStatement := false }
    else
      { resultQueries := st.resultQueries
        complexStatements := pushed
        inComplexStatement := true }
  else if query != [] then
    { resultQueries := st.resultQueries ++ [query ++ [';']]
      complexStatements := st.complexStatements
      inComplexStatement := false }
  else
    { resultQueries := st.resultQueries
      complexStatements := st.complexStatements
      inComplexStatement := false }

/-- Lines 71-100: run the loop over the candidates and return `resultQueries`. -/
def mergeCompound (queries : List (List Char)) : List (List Char) :=
  (queries.foldl splitStep
    { resultQueries := [], complexStatements := [], inComplexStatement := false }).resultQueries

/-- The splitter proper, lines 53-100, on the text of the file. -/
def splitSqlText (raw : List Char) : List (List Char) :=
  let sqlFileData := normalize raw
  if sqlFileData = [] then [] else mergeCompound (candidates sqlFileData)

/-- The function `FileUtils.readSqlFile`. Its argument is the outcome of
`fs.readFile(filePath, 'utf8')`; a failed read is rethrown with a fixed message. -/
def readSqlFile (file : Except String String) : Except String (List String) :=
  match file with
  | .ok sqlFileData => .ok ((splitSqlText sqlFileData.toList).map String.mk)
  | .error _ => .error "Error occurred while reading the SQL file"

end FileUtils

/-! ## The data model of the orchestrator -/

/-- A JavaScript object used as a dictionary, as the list of the properties written to
it, in the order of their first write. The only object that the code enumerates is
`counts`, whose names are the labels `query_N`; that an enumeration lists integer-like
names first therefore plays no part, and the other objects are only read by name. Under
the name `__proto__`, which is an accessor, an object or array written with `Dict.set`
is given back by the read although no own property is created; a value that is not an
object is written with `Dict.setPrimitive`. -/
abbrev Dict (α : Type) := List (String × α)

/-- The property read `obj[key]` of a name written before; `none` when none was. -/
def Dict.get {α : Type} : Dict α → String → Option α
  | [], _ => none
  | (k, v) :: rest, key => if k = key then some v else Dict.get rest key

/-- The property write `obj[key] = value`: an existing property keeps its place. -/
def Dict.set {α : Type} : Dict α → String → α → Dict α
  | [], key, value => [(key, value)]
  | (k, v) :: rest, key, value =>
    if k = key then (k, value) :: rest else (k, v) :: Dict.set rest key value

/-- The property write `obj[key] = value` of a value that is not an object (a number or
`undefined`): the setter of the accessor `__proto__` ignores such a value, every other
name is written as by `Dict.set`. -/
def Dict.setPrimitive {α : Type} (d : Dict α) (key : String) (value : α) : Dict α :=
  if key = "__proto__" then d else d.set key value

/-- What a client package hands back for a statement: an array of rows; an object that
is not an array, such as the `ResultSetHeader` of mysql2 for a statement without result
set; or `undefined`, such as the `recordset` of mssql for such a statement. -/
inductive QueryOutput (Row : Type) where
  | array (rows : List Row)
  | header
  | undefined
  deriving DecidableEq, Repr

/-- The read `rows.length`: the number of rows of an array, `undefined` (`none`) for the
header object, and a `TypeError` on `undefined`. -/
def QueryOutput.length {Row : Type} : QueryOutput Row → Except String (Option Nat)
  | .array rows => .ok (some rows.length)
  | .header => .ok none
  | .undefined => .error "Cannot read properties of undefined (reading 'length')"

/-- The comparison `rows.length > 0`, which is false for `undefined`. -/
def isPositive : Option Nat → Bool
  | some n => decide (0 < n)
  | none => false

/-- One element of `dbConfig.configs`. -/
structure ConnectionConfig where
  name : String
  host : String
  port : String
  user : String
  password : String
  database : String
  deriving DecidableEq, Repr

/-- The constructor argument `dbConfig`. -/
structure DbConfig where
  type : String
  configs : List ConnectionConfig
  deriving DecidableEq, Repr

/-- The object pushed on `dbResults` for one statement; an absent property is `none`,
and so is a `count` that is `undefined`. -/
structure QueryResult (Row : Type) where
  queryNumber : String
  query : String
  rows : Option (QueryOutput Row)
  count : Option Nat
  error : Option String
  exportPath : Option String
  deriving DecidableEq, Repr

/-- A value of `results[config.name]`: the array `dbResults`, or the object
`{ error, count }` written by the outer `catch`. -/
inductive DbResult (Row : Type) where
  | queries (dbResults : List (QueryResult Row))
  | failed (error : String) (count : Nat)
  deriving DecidableEq, Repr

/-- The object `dataToWrite` that `writeCountFile` serialises into `COUNT.txt`. -/
structure CountDocument where
  counts : Dict (Dict (Option Nat))
  queryMapping : Option (Dict String)
  deriving DecidableEq, Repr

/-- What is handed to a file write, before serialisation. -/
inductive FileContent (Row : Type) where
  | logs (lines : List String)
  | countDocument (data : CountDocument)
  | workbook (data : QueryOutput Row)
  deriving DecidableEq, Repr

/-- The calls that leave the process, and the entry into `exportToExcel`, in the order
in which a run makes them. This trace is bookkeeping of the embedding, not program data. -/
inductive Effect (Row : Type) where
  | createConnection (config : ConnectionConfig)
  | execute (name : Option String) (query : String)
  | closeConnection (name : Option String)
  | exportToExcel (queryIndex : Nat) (dbName : String)
  | mkdir (path : String)
  | writeFile (path : String) (content : FileContent Row)
  deriving DecidableEq, Repr

/-- One database client package. A connection is a value of `Conn`; executing a
statement may change it, so that later statements on the same connection see the
effect of earlier ones. `execute` gives what `executeQuery` returns for that package:
`rows` of mysql2, `result.rows` of pg, `recordset` of mssql. -/
structure Driver (Row Conn : Type) where
  createConnection : ConnectionConfig → Except String Conn
  execute : Conn → String → Except String (QueryOutput Row) × Conn
  close : Conn → Except String Unit

/-- Everything outside the process: the three client packages, the file system and the
clock. Errors are represented by their `message`. -/
structure Env (Row Conn : Type) where
  mysql : Driver Row Conn
  postgres : Driver Row Conn
  mssql : Driver Row Conn
  mkdir : String → Except String Unit
  writeFile : String → FileContent Row → Except String Unit
  /-- The value of `moment().format('YYYY-MM-DD')`. -/
  date : String
  /-- The value of `moment().format('hh_mm_ss A')`. -/
  time : String
  /-- The value of `__dirname`. -/
  dirname : String

/-- The function `path.join` of two segments (normalisation of `..` left out: paths
are only built and compared here). -/
def pathJoin (a b : String) : String := a ++ "/" ++ b

/-- The label `query_N` of the statement at index `queryIndex`. -/
def queryKey (queryIndex : Nat) : String := "query_" ++ toString (queryIndex + 1)

namespace FileUtils

/-- The key under which `writeCountFile` stores one entry of `counts`. -/
def formatCountKey (formattedCounts : Dict (Dict (Option Nat))) (key : String) : String :=
  if !("query_".toList.isPrefixOf key.toList) then
    let queryNum := String.mk (key.toList.filter Char.isDigit)
    "query_" ++ (if queryNum != "" then queryNum else toString (formattedCounts.length + 1))
  else key

/-- The function `FileUtils.writeCountFile`, lines 148-191. It returns its outcome and
the effects it performed. `queryMapping = none` is the default `null`; `counts` is always
an object here, so the first check of line 151 never throws. -/
def writeCountFile {Row Conn : Type} (env : Env Row Conn)
    (counts : Dict (Dict (Option Nat)))
    (folderName : String) (queryMapping : Option (Dict String)) :
    Except String String × List (Effect Row) :=
  if folderName = "" then (.error "Folder name is required", [])
  else
    let formattedCounts := counts.foldl
      (fun acc kv => Dict.set acc (formatCountKey acc kv.1) kv.2)
      ([] : Dict (Dict (Option Nat)))
    let dataToWrite : CountDocument :=
      { counts := formattedCounts, queryMapping := queryMapping }
    let filePath := pathJoin folderName "COUNT.txt"
    match env.writeFile filePath (.countDocument dataToWrite) with
    | .ok _ => (.ok filePath, [.writeFile filePath (.countDocument dataToWrite)])
    | .error e => (.error e, [.writeFile filePath (.countDocument dataToWrite)])

end FileUtils

namespace DatabaseUtils

/-! ## `DatabaseUtils` -/

/-- The mutable fields of a `DatabaseUtils` instance, together with the trace of the
effects performed so far. -/
structure State (Row Conn : Type) where
  currentConnection : Option Conn
  currentConfig : Option ConnectionConfig
  executionFolder : Option String
  effects : List (Effect Row)

/-- The fields as the constructor leaves them, lines 11-16. -/
def State.init {Row Conn : Type} : State Row Conn :=
  { currentConnection := none, currentConfig := none, executionFolder := none, effects := [] }

/-- The `switch (this.dbConfig.type)` of `connect`, `disconnect` and `executeQuery`:
the client package of a supported type. -/
def driverFor {Row Conn : Type} (env : Env Row Conn) (type : String) :
    Option (Driver Row Conn) :=
  if type = "mysql" then some env.mysql
  else if type = "postgres" then some env.postgres
  else if type = "mssql" then some env.mssql
  else none

/-- The method `connect`, lines 18-65. An unsupported type throws before any package is
called; a failed connection leaves `currentConnection` as it was. -/
def connect {Row Conn : Type} (env : Env Row Conn) (type : String) (st : State Row Conn)
    (config : ConnectionConfig) : Except String Conn × State Row Conn :=
  match driverFor env type with
  | some driver =>
    let st1 := { st with effects := st.effects ++ [.createConnection config] }
    match driver.createConnection config with
    | .ok connection =>
      (.ok connection,
        { st1 with currentConnection := some connection, currentConfig := some config })
    | .error e => (.error e, st1)
  | none => (.error ("Unsupported database type: " ++ type), st)

/-- The method `disconnect`, lines 67-89. The outcome of closing is only logged on the
console; the two fields are reset in `finally`. -/
def disconnect {Row Conn : Type} (env : Env Row Conn) (type : String)
    (st : State Row Conn) : State Row Conn :=
  match st.currentConnection with
  | some connection =>
    let st1 : State Row Conn :=
      match driverFor env type with
      | some driver =>
        match driver.close connection with
        | .ok _ =>
          { st with effects := st.effects ++ [.closeConnection (st.currentConfig.map (·.name))] }
        | .error _ =>
          { st with effects := st.effects ++ [.closeConnection (st.currentConfig.map (·.name))] }
      | none => st
    { st1 with currentConnection := none, currentConfig := none }
  | none => st

/-- The method `executeQuery`, lines 91-113: it returns what the package gives, array or
not. Calling a method of a `null` connection is a `TypeError`. -/
def executeQuery {Row Conn : Type} (env : Env Row Conn) (type : String)
    (st : State Row Conn) (query : String) :
    Except String (QueryOutput Row) × State Row Conn :=
  match driverFor env type with
  | some driver =>
    match st.currentConnection with
    | some connection =>
      let outcome := driver.execute connection query
      (outcome.1,
        { st with
          currentConnection := some outcome.2
          effects := st.effects ++ [.execute (st.currentConfig.map (·.name)) query] })
    | none => (.error "Cannot read properties of null", st)
  | none => (.error ("Unsupported database type: " ++ type), st)

/-- The path computed by `createExecutionFolder`, lines 116-117. -/
def executionFolderPath {Row Conn : Type} (env : Env Row Conn) : String :=
  let formattedTimestamp := "execution on " ++ env.date ++ " (" ++ env.time ++ ")"
  pathJoin (pathJoin (pathJoin env.dirname "..") "queries-execution") formattedTimestamp

/-- The method `createExecutionFolder`, lines 115-120. -/
def createExecutionFolder {Row Conn : Type} (env : Env Row Conn) (st : State Row Conn) :
    Except String String × State Row Conn :=
  let folder := executionFolderPath env
  let st1 := { st with executionFolder := some folder, effects := st.effects ++ [.mkdir folder] }
  match env.mkdir folder with
  | .ok _ => (.ok folder, st1)
  | .error e => (.error e, st1)

/-- The guard `if (!this.executionFolder) await this.createExecutionFolder()` shared by
`writeExecutionLogs` and `exportToExcel`: the folder to use, or the error thrown. -/
def ensureExecutionFolder {Row Conn : Type} (env : Env Row Conn) (st : State Row Conn) :
    Except String String × State Row Conn :=
  match st.executionFolder with
  | some folder => if folder = "" then createExecutionFolder env st else (.ok folder, st)
  | none => createExecutionFolder env st

/-- The method `writeExecutionLogs`, lines 122-128. -/
def writeExecutionLogs {Row Conn : Type} (env : Env Row Conn) (st : State Row Conn)
    (logs : List String) : Except String Unit × State Row Conn :=
  match ensureExecutionFolder env st with
  | (.ok folder, st1) =>
    let logPath := pathJoin folder "logs.txt"
    (env.writeFile logPath (.logs logs),
      { st1 with effects := st1.effects ++ [.writeFile logPath (.logs logs)] })
  | (.error e, st1) => (.error e, st1)

/-- The method `exportToExcel`, lines 130-152: returns the path of the workbook, or
rethrows what creating the folders or writing the workbook threw. -/
def exportToExcel {Row Conn : Type} (env : Env Row Conn) (st : State Row Conn)
    (data : QueryOutput Row) (queryIndex : Nat) (dbName : String) :
    Except String String × State Row Conn :=
  let st0 := { st with effects := st.effects ++ [.exportToExcel queryIndex dbName] }
  match ensureExecutionFolder env st0 with
  | (.ok folder, st1) =>
    let exportDir := pathJoin folder "exports"
    let st2 := { st1 with effects := st1.effects ++ [.mkdir exportDir] }
    match env.mkdir exportDir with
    | .ok _ =>
      let fileName := dbName ++ "_query_" ++ toString (queryIndex + 1) ++ ".xlsx"
      let filePath := pathJoin exportDir fileName
      let st3 := { st2 with effects := st2.effects ++ [.writeFile filePath (.workbook data)] }
      match env.writeFile filePath (.workbook data) with
      | .ok _ => (.ok filePath, st3)
      | .error e => (.error e, st3)
    | .error e => (.error e, st2)
  | (.error e, st1) => (.error e, st1)

/-- The variables that the loops of `executeQueriesOnAllDbs` update. -/
structure Run (Row Conn : Type) where
  self : State Row Conn
  results : Dict (DbResult Row)
  counts : Dict (Dict (Option Nat))
  logs : List String

/-- Line 184: `if (!counts[queryKey]) counts[queryKey] = {}`. -/
def ensureCountKey (counts : Dict (Dict (Option Nat))) (key : String) :
    Dict (Dict (Option Nat)) :=
  match counts.get key with
  | some _ => counts
  | none => counts.set key []

/-- Lines 184-185: `if (!counts[queryKey]) counts[queryKey] = {}` followed by
`counts[queryKey][config.name] = rows.length`, where `count` is the value read from
`rows.length`, a number or `undefined`. -/
def recordCount (counts : Dict (Dict (Option Nat))) (key name : String)
    (count : Option Nat) : Dict (Dict (Option Nat)) :=
  let counts1 := ensureCountKey counts key
  match counts1.get key with
  | some perDb => counts1.set key (perDb.setPrimitive name count)
  | none => counts1

/-- The body of the statement loop, lines 178-214, for the statement `query` at index
`queryIndex`; `dbResults` is the array being filled for `config`. `rows` is whatever
`executeQuery` returned, and `rows.length` is read from it as JavaScript does. -/
def runQuery {Row Conn : Type} (env : Env Row Conn) (type : String) (shouldExport : Bool)
    (config : ConnectionConfig) (queryIndex : Nat) (query : String)
    (run : Run Row Conn) (dbResults : List (QueryResult Row)) :
    Run Row Conn × List (QueryResult Row) :=
  match executeQuery env type run.self query with
  | (.ok rows, st1) =>
    match rows.length with
    | .ok length =>
      let counts1 := recordCount run.counts (queryKey queryIndex) config.name length
      if shouldExport && isPositive length then
        match exportToExcel env st1 rows queryIndex config.name with
        | (.ok exportPath, st2) =>
          ({ self := st2, results := run.results, counts := counts1,
             logs := run.logs ++
               ["Exported results for \"" ++ queryKey queryIndex ++ "\" from " ++
                  config.name ++ " to " ++ exportPath,
                "Successfully executed " ++ queryKey queryIndex ++ " on " ++ config.name] },
           dbResults ++ [{ queryNumber := queryKey queryIndex, query := query,
                           rows := some rows, count := length, error := none,
                           exportPath := some exportPath }])
        | (.error queryError, st2) =>
          ({ self := st2, results := run.results, counts := counts1,
             logs := run.logs ++
               ["Error executing " ++ queryKey queryIndex ++ " on " ++ config.name ++ ": " ++
                  queryError] },
           dbResults ++ [{ queryNumber := queryKey queryIndex, query := query, rows := none,
                           count := some 0, error := some queryError, exportPath := none }])
      else
        ({ self := st1, results := run.results, counts := counts1,
           logs := run.logs ++
             ["Successfully executed " ++ queryKey queryIndex ++ " on " ++ config.name] },
         dbResults ++ [{ queryNumber := queryKey queryIndex, query := query,
                         rows := some rows, count := length, error := none,
                         exportPath := none }])
    | .error typeError =>
      -- line 184 has run when reading `rows.length` at line 185 throws into the `catch`
      ({ self := st1, results := run.results,
         counts := ensureCountKey run.counts (queryKey queryIndex),
         logs := run.logs ++
           ["Error executing " ++ queryKey queryIndex ++ " on " ++ config.name ++ ": " ++
              typeError] },
       dbResults ++ [{ queryNumber := queryKey queryIndex, query := query, rows := none,
                       count := some 0, error := some typeError, exportPath := none }])
  | (.error queryError, st1) =>
    ({ self := st1, results := run.results, counts := run.counts,
       logs := run.logs ++
         ["Error executing " ++ queryKey queryIndex ++ " on " ++ config.name ++ ": " ++
            queryError] },
     dbResults ++ [{ queryNumber := queryKey queryIndex, query := query, rows := none,
                     count := some 0, error := some queryError, exportPath := none }])

/-- The statement loop, lines 177-215, from index `queryIndex` on. -/
def runQueries {Row Conn : Type} (env : Env Row Conn) (type : String) (shouldExport : Bool)
    (config : ConnectionConfig) :
    List String → Nat → Run Row Conn → List (QueryResult Row) →
      Run Row Conn × List (QueryResult Row)
  | [], _, run, dbResults => (run, dbResults)
  | query :: rest, queryIndex, run, dbResults =>
    let next := runQuery env type shouldExport config queryIndex query run dbResults
    runQueries env type shouldExport config rest (queryIndex + 1) next.1 next.2

/-- The body of the loop over the configurations, lines 170-231. -/
def processConfig {Row Conn : Type} (env : Env Row Conn) (type : String)
    (queries : List String) (shouldExport : Bool) (run : Run Row Conn)
    (config : ConnectionConfig) : Run Row Conn :=
  match connect env type run.self config with
  | (.ok _, st1) =>
    let run1 : Run Row Conn :=
      { run with self := st1, logs := run.logs ++ ["Connected to database: " ++ config.name] }
    let done := runQueries env type shouldExport config queries 0 run1 []
    { self := disconnect env type done.1.self
      results := done.1.results.set config.name (.queries done.2)
      counts := done.1.counts
      logs := done.1.logs ++ ["Disconnected from database: " ++ config.name] }
  | (.error dbError, st1) =>
    { self := disconnect env type st1
      results := run.results.set config.name (.failed dbError 0)
      counts := run.counts
      logs := run.logs ++ ["Error processing database " ++ config.name ++ ": " ++ dbError] }

/-- The object returned by `executeQueriesOnAllDbs`, lines 238-243. -/
structure RunResult (Row : Type) where
  results : Dict (DbResult Row)
  counts : Dict (Dict (Option Nat))
  queryMapping : Dict String
  executionFolder : Option String
  deriving DecidableEq, Repr

/-- Lines 164-166: the mapping from `query_N` to the text of statement `N`. -/
def buildQueryMap : List String → Nat → Dict String → Dict String
  | [], _, queryMap => queryMap
  | query :: rest, index, queryMap =>
    buildQueryMap rest (index + 1) (queryMap.set (queryKey index) query)

/-- The loop over `this.dbConfig.configs`, lines 169-232. -/
def processConfigs {Row Conn : Type} (env : Env Row Conn) (dbConfig : DbConfig)
    (queries : List String) (shouldExport : Bool) (run : Run Row Conn) : Run Row Conn :=
  dbConfig.configs.foldl (processConfig env dbConfig.type queries shouldExport) run

/-- The method `executeQueriesOnAllDbs`, lines 154-244: the value returned or the error
thrown, and the instance afterwards. -/
def executeQueriesOnAllDbs {Row Conn : Type} (env : Env Row Conn) (dbConfig : DbConfig)
    (st : State Row Conn) (queries : List String) (shouldExport : Bool) :
    Except String (RunResult Row) × State Row Conn :=
  match createExecutionFolder env st with
  | (.error e, st1) => (.error e, st1)
  | (.ok _, st1) =>
    let queryMap := buildQueryMap queries 0 []
    let run := processConfigs env dbConfig queries shouldExport
      { self := st1, results := [], counts := [], logs := [] }
    match writeExecutionLogs env run.self run.logs with
    | (.error e, st2) => (.error e, st2)
    | (.ok _, st2) =>
      -- line 236 passes no third argument, so `queryMapping` takes its default `null`
      match st2.executionFolder with
      | none => (.error "Folder name is required", st2)
      | some folder =>
        match FileUtils.writeCountFile env run.counts folder none with
        | (.error e, effects) => (.error e, { st2 with effects := st2.effects ++ effects })
        | (.ok _, effects) =>
          (.ok { results := run.results, counts := run.counts, queryMapping := queryMap,
                 executionFolder := st2.executionFolder },
           { st2 with effects := st2.effects ++ effects })

end DatabaseUtils

/-! ## Vocabulary of the statements about `DatabaseUtils` -/

/-- The two shapes of an element of `dbResults`: what the package returned, with its
`length` as count (the number of rows of an array, `undefined` for another object) and no
error; or an error with count 0, no rows and no export path. -/
def QueryResult.WellShaped {Row : Type} (entry : QueryResult Row) : Prop :=
  (∃ output length, entry.rows = some output ∧ output.length = .ok length ∧
    entry.count = length ∧ entry.error = none) ∨
  (∃ e, entry.error = some e ∧ entry.count = some 0 ∧ entry.rows = none ∧
    entry.exportPath = none)

/-- The two shapes as the spec words them: an array of rows with their number as count
and no error, or an error message with count 0. -/
def QueryResult.RowsOrFailure {Row : Type} (entry : QueryResult Row) : Prop :=
  (∃ rows : List Row, entry.rows = some (.array rows) ∧ entry.count = some rows.length ∧
    entry.error = none) ∨
  (∃ e, entry.error = some e ∧ entry.count = some 0)

/-- The number of rows that a statement returned: those of an array, and none when the
package returned something else. -/
def QueryOutput.rowCount {Row : Type} : QueryOutput Row → Nat
  | .array rows => rows.length
  | .header => 0
  | .undefined => 0

/-- The object pushed at lines 190-203 for the statement at `queryIndex`: what the
package returned, the value read from its `length`, and the export path when there is
one. -/
def outputEntry {Row : Type} (queryIndex : Nat) (query : String) (output : QueryOutput Row)
    (length : Option Nat) (exportPath : Option String) : QueryResult Row :=
  { queryNumber := queryKey queryIndex, query := query, rows := some output,
    count := length, error := none, exportPath := exportPath }

/-- The object pushed at lines 190-203 when the package returned the array `rows`: the
rows, their number, and the export path when there is one. -/
def successEntry {Row : Type} (queryIndex : Nat) (query : String) (rows : List Row)
    (exportPath : Option String) : QueryResult Row :=
  outputEntry queryIndex query (.array rows) (some rows.length) exportPath

/-- The object pushed at lines 208-213 for the statement at `queryIndex`: the message of
the error and count 0. -/
def failureEntry {Row : Type} (queryIndex : Nat) (query : String) (error : String) :
    QueryResult Row :=
  { queryNumber := queryKey queryIndex, query := query, rows := none,
    count := some 0, error := some error, exportPath := none }

namespace DatabaseUtils

/-- What was written at `counts[key][name]`: `none` when nothing was, `some none` when
`undefined` was, `some (some n)` when the number `n` was. -/
def countAt (counts : Dict (Dict (Option Nat))) (key name : String) : Option (Option Nat) :=
  (counts.get key).bind (fun perDb => perDb.get name)

/-- The connection as it is just before the statement at index `i` is executed, when
the statements before it have been executed in order on `connection`. -/
def connBefore {Row Conn : Type} (driver : Driver Row Conn) (connection : Conn)
    (queries : List String) (i : Nat) : Conn :=
  (queries.take i).foldl (fun conn query => (driver.execute conn query).2) connection

/-- The statements that a trace shows as executed while `name` was the current
configuration, in order. -/
def executedOn {Row : Type} (name : String) (effects : List (Effect Row)) : List String :=
  effects.filterMap (fun effect =>
    match effect with
    | .execute (some n) query => if n = name then some query else none
    | _ => none)

/-- What `exportToExcel` returns or throws when the session folder is `folder`: its
outcome does not depend on the other fields of the instance. -/
def exportOutcome {Row Conn : Type} (env : Env Row Conn) (folder : String)
    (data : QueryOutput Row) (queryIndex : Nat) (dbName : String) : Except String String :=
  (exportToExcel env
    { currentConnection := none, currentConfig := none, executionFolder := some folder,
      effects := [] } data queryIndex dbName).1

/-- The state in which the statement loop runs on `config`: the type is supported,
`connection` is open, `config` is current and the session folder is `folder`. -/
structure InLoop {Row Conn : Type} (env : Env Row Conn) (type : String)
    (driver : Driver Row Conn) (config : ConnectionConfig) (folder : String)
    (st : State Row Conn) (connection : Conn) : Prop where
  driver_eq : driverFor env type = some driver
  connection_eq : st.currentConnection = some connection
  config_eq : st.currentConfig = some config
  folder_eq : st.executionFolder = some folder
  folder_ne : folder ≠ ""

/-- The variables of `executeQueriesOnAllDbs` when the loop over the configurations
starts: the instance as `createExecutionFolder` leaves it and empty accumulators. -/
def loopStart {Row Conn : Type} (env : Env Row Conn) (st : State Row Conn) : Run Row Conn :=
  { self := (createExecutionFolder env st).2, results := [], counts := [], logs := [] }

/-- The file system lets a run write its session: the session folder can be created and
`logs.txt` and `COUNT.txt` can be written in it. Nothing is asked of the exports. -/
def SessionWritable {Row Conn : Type} (env : Env Row Conn) : Prop :=
  env.mkdir (executionFolderPath env) = .ok () ∧
  (∀ logs, env.writeFile (pathJoin (executionFolderPath env) "logs.txt") (.logs logs) =
    .ok ()) ∧
  (∀ data, env.writeFile (pathJoin (executionFolderPath env) "COUNT.txt")
    (.countDocument data) = .ok ())

/-- The value of a decimal digit. -/
def digitValue (c : Char) : Nat := c.toNat - '0'.toNat

/-- The number written by a list of decimal digits, continuing from `acc`. -/
def decimalValue : Nat → List Char → Nat
  | acc, [] => acc
  | acc, c :: cs => decimalValue (acc * 10 + digitValue c) cs

end DatabaseUtils

/-! ## Concrete runs -/

namespace Example

/-- A client package for databases that listen on port 3306 only. The statement `BAD`
fails, `EMPTY` returns no row, `DELETE FROM t` returns a result header as mysql2 does
for a statement without result set, `TRUNCATE TABLE t` returns `undefined` as the
`recordset` of mssql is for such a statement, and every other statement returns two
rows. A connection is the number of statements executed on it so far. -/
def driver : Driver String Nat :=
  { createConnection := fun config =>
      if config.port = "3306" then .ok 0 else .error "ECONNREFUSED"
    execute := fun connection query =>
      (if query = "BAD" then .error "syntax error"
        else if query = "EMPTY" then .ok (.array [])
        else if query = "DELETE FROM t" then .ok .header
        else if query = "TRUNCATE TABLE t" then .ok .undefined
        else .ok (.array ["row 1", "row 2"]),
       connection + 1)
    close := fun _ => .ok () }

/-- An environment whose session folder, log and count summary can always be written;
writing a workbook fails when `exportFails`. -/
def env (exportFails : Bool) : Env String Nat :=
  { mysql := driver
    postgres := driver
    mssql := driver
    mkdir := fun _ => .ok ()
    writeFile := fun _ content =>
      match content with
      | .workbook _ => if exportFails then .error "EACCES" else .ok ()
      | _ => .ok ()
    date := "2024-01-01"
    time := "10_00_00 AM"
    dirname := "/app/utils" }

/-- A configuration with the given name and port. -/
def config (name port : String) : ConnectionConfig :=
  { name := name, host := "localhost", port := port, user := "root", password := "secret",
    database := "shop" }

end Example

/-! ## Vocabulary of the later statements -/

namespace FileUtils

/-- What the loop of lines 75-98 does with one candidate: `plain` is a candidate met
outside compound mode and pushed with `;` (line 95), `buffered` one kept in
`complexStatements` without closing the block, `closing` one that closes the block
(lines 82-91) and `skipped` an empty one outside compound mode. -/
inductive Role where
  | plain
  | buffered
  | closing
  | skipped
  deriving DecidableEq, Repr

/-- The role of `query` when the loop meets it with `inComplexStatement` as given, and
the value of `inComplexStatement` after it; the tests are those of `splitStep`. -/
def roleOf (inComplexStatement : Bool) (query : List Char) : Role × Bool :=
  if (if createOpener.test query then true else inComplexStatement) then
    if endDollars.test query then (.closing, false)
    else if endWord.test query && trim query == "END".toList then (.closing, false)
    else (.buffered, true)
  else if query != [] then (.plain, false)
  else (.skipped, false)

/-- The roles of the candidates, in order, from the given value of
`inComplexStatement`. -/
def roles : Bool → List (List Char) → List Role
  | _, [] => []
  | inComplexStatement, query :: rest =>
    (roleOf inComplexStatement query).1 :: roles (roleOf inComplexStatement query).2 rest

/-- From the wording of the spec, not from the code: a line cut at its first
line-comment marker, the two dashes and everything after them removed. -/
def truncateAtMarker : List Char → List Char
  | [] => []
  | c :: cs => if "--".toList.isPrefixOf (c :: cs) then [] else c :: truncateAtMarker cs

/-- From the wording of the spec, not from the code: the text in which every line is cut
at its first line-comment marker. -/
def withoutLineComments (raw : List Char) : List Char :=
  join ['\n'] ((split '\n' raw).map truncateAtMarker)

end FileUtils

namespace DatabaseUtils

/-- The calls of a trace that open or close a connection, in order. -/
def connectionCalls {Row : Type} (effects : List (Effect Row)) : List (Effect Row) :=
  effects.filter (fun effect =>
    match effect with
    | .createConnection _ => true
    | .closeConnection _ => true
    | _ => false)

/-- The connection calls one configuration is expected to cause: none when the type has
no client package, an attempt alone when it fails, an attempt followed by the closing of
that same configuration when it succeeds. -/
def connectionCallsFor {Row Conn : Type} (env : Env Row Conn) (type : String)
    (config : ConnectionConfig) : List (Effect Row) :=
  match driverFor env type with
  | none => []
  | some driver =>
    match driver.createConnection config with
    | .ok _ => [.createConnection config, .closeConnection (some config.name)]
    | .error _ => [.createConnection config]

/-- The environment `env` in which closing a connection behaves as `close` for the three
client packages. -/
def withClose {Row Conn : Type} (env : Env Row Conn) (close : Conn → Except String Unit) :
    Env Row Conn :=
  { env with
    mysql := { env.mysql with close := close }
    postgres := { env.postgres with close := close }
    mssql := { env.mssql with close := close } }

end DatabaseUtils

/-! # Theorems -/

namespace FileUtils

/-! ## Lemmas on the string helpers -/

theorem split_mem_all (P : Char → Prop) (sep : Char) :
    ∀ s : List Char, (∀ c ∈ s, P c) → ∀ piece ∈ split sep s, ∀ c ∈ piece, P c := by
  intro s
  induction s with
  | nil =>
    intro _ piece hp c hc
    simp [split] at hp
    subst hp
    simp at hc
  | cons x xs ih =>
    intro h piece hp c hc
    have hxs : ∀ c ∈ xs, P c := fun c hc => h c (List.mem_cons_of_mem _ hc)
    unfold split at hp
    split at hp
    · rcases List.mem_cons.1 hp with hp | hp
      · subst hp; simp at hc
      · exact ih hxs piece hp c hc
    · split at hp
      · simp at hp; subst hp
        simp at hc; subst hc
        exact h _ (List.mem_cons_self _ _)
      · rename_i p ps heq
        have ih1 := ih hxs
        rw [heq] at ih1
        rcases List.mem_cons.1 hp with hp | hp
        · subst hp
          rcases List.mem_cons.1 hc with hc | hc
          · subst hc; exact h _ (List.mem_cons_self _ _)
          · exact ih1 p (List.mem_cons_self _ _) c hc
        · exact ih1 piece (List.mem_cons_of_mem _ hp) c hc

theorem stripLineComment_mem : ∀ (s : List Char) (c : Char), c ∈ stripLineComment s → c ∈ s := by
  intro s
  induction s with
  | nil => intro c hc; simp [stripLineComment] at hc
  | cons x xs ih =>
    intro c hc
    unfold stripLineComment at hc
    split at hc
    · simp at hc
    · rcases List.mem_cons.1 hc with hc | hc
      · subst hc; exact List.mem_cons_self _ _
      · exact List.mem_cons_of_mem _ (ih c hc)

theorem trim_eq_nil_of_all (s : List Char) (h : ∀ c ∈ s, isWhiteSpace c = true) :
    trim s = [] := by
  have : s.dropWhile isWhiteSpace = [] := by
    rw [List.dropWhile_eq_nil_iff]; exact h
  simp [trim, this]

theorem normalize_eq_nil_of_all (s : List Char) (h : ∀ c ∈ s, isWhiteSpace c = true) :
    normalize s = [] := by
  have hlines : ((split '\n' s).map stripLineComment).filter (fun line => trim line != []) = [] := by
    rw [List.filter_eq_nil_iff]
    intro line hline
    rcases List.mem_map.1 hline with ⟨piece, hpiece, rfl⟩
    have : trim (stripLineComment piece) = [] :=
      trim_eq_nil_of_all _ (fun c hc =>
        split_mem_all (fun c => isWhiteSpace c = true) '\n' s h piece hpiece c
          (stripLineComment_mem piece c hc))
    simp [this]
  simp only [normalize, hlines]
  rfl

/-! ## Lemmas on the merge loop -/

theorem candidates_ne_nil (s : List Char) : ∀ q ∈ candidates s, q ≠ [] := by
  intro q hq
  have := (List.mem_filter.1 hq).2
  simpa using this

theorem foldl_splitStep_plain :
    ∀ (qs : List (List Char)) (st : SplitState), st.inComplexStatement = false →
      (∀ q ∈ qs, createOpener.test q = false ∧ q ≠ []) →
      (qs.foldl splitStep st).resultQueries = st.resultQueries ++ qs.map (fun q => q ++ [';']) := by
  intro qs
  induction qs with
  | nil => intro st _ _; simp
  | cons q rest ih =>
    intro st hst h
    have hq := h q (List.mem_cons_self _ _)
    have hstep : splitStep st q =
        { resultQueries := st.resultQueries ++ [q ++ [';']]
          complexStatements := st.complexStatements
          inComplexStatement := false } := by
      simp [splitStep, hq.1, hq.2, hst]
    rw [List.foldl_cons, hstep, ih _ rfl (fun q' hq' => h q' (List.mem_cons_of_mem _ hq'))]
    simp

theorem foldl_splitStep_open :
    ∀ (qs : List (List Char)) (st : SplitState), st.inComplexStatement = true →
      (∀ q ∈ qs, endDollars.test q = false ∧ trim q ≠ "END".toList) →
      qs.foldl splitStep st =
        { resultQueries := st.resultQueries
          complexStatements := st.complexStatements ++ qs
          inComplexStatement := true } := by
  intro qs
  induction qs with
  | nil => intro st hst _; cases st; simp_all
  | cons q rest ih =>
    intro st hst h
    have hq := h q (List.mem_cons_self _ _)
    have hstep : splitStep st q =
        { resultQueries := st.resultQueries
          complexStatements := st.complexStatements ++ [q]
          inComplexStatement := true } := by
      have h2 : trim q ≠ ['E', 'N', 'D'] := hq.2
      simp [splitStep, hq.1, h2, hst]
    rw [List.foldl_cons, hstep, ih _ rfl (fun q' hq' => h q' (List.mem_cons_of_mem _ hq'))]
    simp

theorem join_cons_cons (sep x z : List Char) (zs : List (List Char)) :
    join sep (x :: z :: zs) = x ++ sep ++ join sep (z :: zs) := by
  simp [join, List.intercalate, List.intersperse]

theorem join_append_singleton (sep : List Char) (y : List Char) :
    ∀ xs : List (List Char), ∃ pre, join sep (xs ++ [y]) = pre ++ y := by
  intro xs
  induction xs with
  | nil => exact ⟨[], by simp [join, List.intercalate]⟩
  | cons x rest ih =>
    obtain ⟨pre, hpre⟩ := ih
    cases hrest : rest ++ [y] with
    | nil => simp at hrest
    | cons z zs =>
      refine ⟨x ++ sep ++ pre, ?_⟩
      rw [List.cons_append, hrest, join_cons_cons, ← hrest, hpre]
      simp

theorem head_not_of_dropWhile_fix {α : Type} (p : α → Bool) (a : α) (rest : List α)
    (h : List.dropWhile p (a :: rest) = a :: rest) : p a = false := by
  cases hpa : p a with
  | false => rfl
  | true =>
    rw [List.dropWhile_cons_of_pos hpa] at h
    have hlen := (List.dropWhile_suffix p : rest.dropWhile p <:+ rest).length_le
    rw [h] at hlen
    simp at hlen

theorem dropWhile_rdropWhile_dropWhile {α : Type} (p : α → Bool) (s : List α) :
    List.dropWhile p (List.rdropWhile p (List.dropWhile p s)) =
      List.rdropWhile p (List.dropWhile p s) := by
  have ht : List.dropWhile p (List.dropWhile p s) = List.dropWhile p s :=
    List.dropWhile_idempotent p s
  obtain ⟨r, hr⟩ := List.rdropWhile_prefix p (List.dropWhile p s)
  cases hP : List.rdropWhile p (List.dropWhile p s) with
  | nil => rfl
  | cons a P =>
    rw [hP] at hr
    rw [← hr, List.cons_append] at ht
    have hpa := head_not_of_dropWhile_fix p a _ ht
    simp [List.dropWhile_cons, hpa]

theorem trim_eq_rdropWhile (s : List Char) :
    trim s = List.rdropWhile isWhiteSpace (List.dropWhile isWhiteSpace s) := rfl

theorem trim_trim (s : List Char) : trim (trim s) = trim s := by
  rw [trim_eq_rdropWhile (trim s), trim_eq_rdropWhile s, dropWhile_rdropWhile_dropWhile,
    List.rdropWhile_idempotent]

theorem trim_candidate (s q : List Char) (hq : q ∈ candidates s) : trim q = q := by
  have hq1 := (List.mem_filter.1 hq).1
  rcases List.mem_map.1 hq1 with ⟨piece, _, rfl⟩
  exact trim_trim piece

theorem candidates_nil : candidates [] = [] := by decide

theorem splitSqlText_eq_mergeCompound (raw : List Char) :
    splitSqlText raw = mergeCompound (candidates (normalize raw)) := by
  unfold splitSqlText
  by_cases h : normalize raw = []
  · simp [h, candidates_nil, mergeCompound]
  · simp [h]

/-! ## The claims on the splitter -/

/-- C3. When no candidate matches the `CREATE ... TRIGGER|PROCEDURE` opener,
`readSqlFile` returns the candidates (the non-empty trimmed pieces of the normalised text
between `;`) in order, each followed by `;`. -/
theorem readSqlFile_plain_statements (raw : String)
    (h : ∀ q ∈ candidates (normalize raw.toList), createOpener.test q = false) :
    readSqlFile (.ok raw) =
      .ok ((candidates (normalize raw.toList)).map (fun q => String.mk (q ++ [';']))) := by
  have hloop := foldl_splitStep_plain (candidates (normalize raw.toList))
    { resultQueries := [], complexStatements := [], inComplexStatement := false } rfl
    (fun q hq => ⟨h q hq, candidates_ne_nil _ q hq⟩)
  simp only [readSqlFile, splitSqlText_eq_mergeCompound, mergeCompound, hloop]
  simp

/-- Witness of C3 at the text of the scenario: two statements and a line comment. -/
theorem readSqlFile_plain_statements_witness :
    (∀ q ∈ candidates (normalize "SELECT 1; -- comment\nSELECT 2;".toList),
      createOpener.test q = false) ∧
    readSqlFile (.ok "SELECT 1; -- comment\nSELECT 2;") =
      .ok ((candidates (normalize "SELECT 1; -- comment\nSELECT 2;".toList)).map
        (fun q => String.mk (q ++ [';']))) ∧
    (candidates (normalize "SELECT 1; -- comment\nSELECT 2;".toList)).map
        (fun q => String.mk (q ++ [';'])) = ["SELECT 1;", "SELECT 2;"] :=
  ⟨by decide, readSqlFile_plain_statements "SELECT 1; -- comment\nSELECT 2;" (by decide),
    by decide⟩

/-- C4. When the first candidate opens a compound block, the last candidate is the first
one to match `END $$` and no earlier candidate is exactly `END`, `readSqlFile` returns
exactly one statement: the candidates before the last one and `END`, joined by `; `, with
`;` appended; that statement ends in `END;`. -/
theorem readSqlFile_single_compound (raw : String) (body : List (List Char))
    (last : List Char)
    (hcands : candidates (normalize raw.toList) = body ++ [last])
    (hopen : ∀ first, (body ++ [last]).head? = some first → createOpener.test first = true)
    (hclose : endDollars.test last = true)
    (hbody : ∀ q ∈ body, endDollars.test q = false ∧ q ≠ "END".toList) :
    readSqlFile (.ok raw) =
      .ok [String.mk (join "; ".toList (body ++ ["END".toList]) ++ [';'])] ∧
    ∃ pre : String,
      String.mk (join "; ".toList (body ++ ["END".toList]) ++ [';']) = pre ++ "END;" := by
  constructor
  · have hbody1 : ∀ q ∈ body, endDollars.test q = false ∧ trim q ≠ "END".toList := by
      intro q hq
      have hmem : q ∈ candidates (normalize raw.toList) := by
        rw [hcands]; exact List.mem_append_left _ hq
      rw [trim_candidate _ q hmem]
      exact hbody q hq
    simp only [readSqlFile, splitSqlText_eq_mergeCompound, mergeCompound, hcands,
      List.foldl_append, List.foldl_cons, List.foldl_nil]
    cases body with
    | nil =>
      have ho := hopen last (by simp)
      simp [splitStep, ho, hclose]
    | cons first rest =>
      have ho := hopen first (by simp)
      have hf := hbody1 first (List.mem_cons_self _ _)
      have hf2 : trim first ≠ ['E', 'N', 'D'] := hf.2
      have hstep : splitStep
          { resultQueries := [], complexStatements := [], inComplexStatement := false } first =
          { resultQueries := [], complexStatements := [first], inComplexStatement := true } := by
        simp [splitStep, ho, hf.1, hf2]
      rw [List.foldl_cons, hstep, foldl_splitStep_open rest _ rfl
        (fun q hq => hbody1 q (List.mem_cons_of_mem _ hq))]
      have hdrop : (first :: (rest ++ [last])).dropLast = first :: rest := by
        rw [← List.cons_append, List.dropLast_concat]
      simp [splitStep, hclose, hdrop]
  · obtain ⟨pre, hpre⟩ := join_append_singleton "; ".toList "END".toList body
    refine ⟨String.mk pre, ?_⟩
    rw [hpre]
    apply String.ext
    simp

/-- Witness of C4: a trigger whose body contains `;` and ends in `END$$`. -/
theorem readSqlFile_single_compound_witness :
    readSqlFile
        (.ok "CREATE TRIGGER t ... BEGIN ... IF x THEN y; END IF; END$$") =
      .ok ["CREATE TRIGGER t ... BEGIN ... IF x THEN y; END IF; END;"] :=
  (readSqlFile_single_compound
    "CREATE TRIGGER t ... BEGIN ... IF x THEN y; END IF; END$$"
    ["CREATE TRIGGER t ... BEGIN ... IF x THEN y".toList,
      "END IF".toList]
    "END$$".toList (by decide) (by decide) (by decide) (by decide)).1

/-- C10. For a text made only of spaces, tabs and newlines (the empty text included),
`readSqlFile` returns the empty list. -/
theorem readSqlFile_blank_input (raw : String)
    (h : ∀ c ∈ raw.toList, c = ' ' ∨ c = '\t' ∨ c = '\n') :
    readSqlFile (.ok raw) = .ok [] := by
  have hws : ∀ c ∈ raw.toList, isWhiteSpace c = true := by
    intro c hc
    rcases h c hc with rfl | rfl | rfl <;> decide
  have hn : normalize raw.toList = [] := normalize_eq_nil_of_all _ hws
  simp only [readSqlFile, splitSqlText, hn]
  rfl

/-- Witness of C10 at a text of blanks, a tab and newlines. -/
theorem readSqlFile_blank_input_witness :
    (∀ c ∈ "  \n\t \n".toList, c = ' ' ∨ c = '\t' ∨ c = '\n') ∧
    readSqlFile (.ok "  \n\t \n") = .ok [] :=
  ⟨by decide, readSqlFile_blank_input "  \n\t \n" (by decide)⟩

end FileUtils

namespace DatabaseUtils

/-! ## Labels are distinct -/

theorem digitValue_digitChar (k : Nat) (hk : k < 10) : digitValue (Nat.digitChar k) = k := by
  interval_cases k <;> rfl

theorem decimalValue_toDigitsCore : ∀ (fuel n : Nat) (ds : List Char), n < fuel →
    decimalValue 0 (Nat.toDigitsCore 10 fuel n ds) = decimalValue n ds := by
  intro fuel
  induction fuel with
  | zero => intro n ds h; omega
  | succ fuel ih =>
    intro n ds h
    have hd := digitValue_digitChar (n % 10) (Nat.mod_lt _ (by omega))
    rw [Nat.toDigitsCore]
    split
    · rename_i h0
      show decimalValue (0 * 10 + digitValue (Nat.digitChar (n % 10))) ds = _
      rw [hd]
      congr 1
      omega
    · rename_i h0
      have hlt : n / 10 < fuel := by omega
      rw [ih (n / 10) _ hlt]
      show decimalValue (n / 10 * 10 + digitValue (Nat.digitChar (n % 10))) ds = _
      rw [hd]
      congr 1
      omega

theorem decimalValue_repr (n : Nat) : decimalValue 0 (Nat.repr n).toList = n := by
  show decimalValue 0 (Nat.toDigitsCore 10 (n + 1) n []) = n
  rw [decimalValue_toDigitsCore _ _ _ (Nat.lt_succ_self n)]
  rfl

theorem toString_nat_injective (n m : Nat) (h : toString n = toString m) : n = m := by
  have h1 : Nat.repr n = Nat.repr m := h
  have h2 := congrArg (fun s => decimalValue 0 s.toList) h1
  simp only [decimalValue_repr] at h2
  exact h2

theorem string_append_left_cancel (a b c : String) (h : a ++ b = a ++ c) : b = c := by
  have h1 := congrArg String.data h
  simp only [String.data_append] at h1
  exact String.ext (List.append_cancel_left h1)

theorem queryKey_injective (i j : Nat) (h : queryKey i = queryKey j) : i = j := by
  have := toString_nat_injective _ _ (string_append_left_cancel _ _ _ h)
  omega

/-! ## Dictionaries -/

theorem Dict.get_set_self {α : Type} (d : Dict α) (key : String) (value : α) :
    (d.set key value).get key = some value := by
  induction d with
  | nil => simp [Dict.set, Dict.get]
  | cons kv rest ih =>
    obtain ⟨k, v⟩ := kv
    by_cases h : k = key
    · simp [Dict.set, Dict.get, h]
    · simp [Dict.set, Dict.get, h, ih]

theorem Dict.get_set_ne {α : Type} (d : Dict α) (key other : String) (value : α)
    (hne : key ≠ other) : (d.set key value).get other = d.get other := by
  induction d with
  | nil => simp [Dict.set, Dict.get, hne]
  | cons kv rest ih =>
    obtain ⟨k, v⟩ := kv
    by_cases h : k = key
    · subst h
      simp [Dict.set, Dict.get, hne]
    · by_cases h2 : k = other
      · subst h2
        simp [Dict.set, Dict.get, h]
      · simp [Dict.set, Dict.get, h, h2, ih]

theorem ensureCountKey_get (counts : Dict (Dict (Option Nat))) (key : String) :
    ∃ perDb, (ensureCountKey counts key).get key = some perDb ∧
      (counts.get key = some perDb ∨ (counts.get key = none ∧ perDb = [])) := by
  unfold ensureCountKey
  cases h : Dict.get counts key with
  | none => exact ⟨[], by simp [Dict.get_set_self], Or.inr ⟨rfl, rfl⟩⟩
  | some perDb => exact ⟨perDb, by simp [h], Or.inl rfl⟩

theorem countAt_ensureCountKey (counts : Dict (Dict (Option Nat))) (key key1 name1 : String) :
    countAt (ensureCountKey counts key) key1 name1 = countAt counts key1 name1 := by
  unfold ensureCountKey countAt
  cases h : Dict.get counts key with
  | some perDb => rfl
  | none =>
    by_cases hk : key = key1
    · subst hk
      simp [Dict.get_set_self, h, Dict.get]
    · simp [Dict.get_set_ne _ _ _ _ hk]

theorem countAt_recordCount_self (counts : Dict (Dict (Option Nat))) (key name : String)
    (n : Option Nat) (hname : name ≠ "__proto__") :
    countAt (recordCount counts key name n) key name = some n := by
  obtain ⟨perDb, hget, _⟩ := ensureCountKey_get counts key
  unfold recordCount countAt
  simp [hget, Dict.get_set_self, Dict.setPrimitive, hname]

theorem countAt_recordCount_ne (counts : Dict (Dict (Option Nat)))
    (key name key1 name1 : String) (n : Option Nat) (hne : key ≠ key1 ∨ name ≠ name1) :
    countAt (recordCount counts key name n) key1 name1 = countAt counts key1 name1 := by
  obtain ⟨perDb, hget, _⟩ := ensureCountKey_get counts key
  rw [← countAt_ensureCountKey counts key key1 name1]
  unfold recordCount
  simp only [hget]
  unfold countAt
  by_cases hk : key = key1
  · subst hk
    have hn : name ≠ name1 := by
      rcases hne with h | h
      · exact absurd rfl h
      · exact h
    rw [Dict.get_set_self, hget]
    simp only [Option.bind_some, Dict.setPrimitive]
    split
    · rfl
    · exact Dict.get_set_ne _ _ _ _ hn
  · rw [Dict.get_set_ne _ _ _ _ hk]

end DatabaseUtils

namespace DatabaseUtils

variable {Row Conn : Type}

/-! ## One statement -/

/-- What one iteration of the statement loop always does: it pushes exactly one well
shaped entry carrying the label and the text, leaves `results` alone and touches
`counts` at most at its own label and database name. -/
theorem runQuery_step (env : Env Row Conn) (type : String) (shouldExport : Bool)
    (config : ConnectionConfig) (queryIndex : Nat) (query : String) (run : Run Row Conn)
    (dbResults : List (QueryResult Row)) :
    ∃ entry : QueryResult Row,
      (runQuery env type shouldExport config queryIndex query run dbResults).2 =
        dbResults ++ [entry] ∧
      entry.queryNumber = queryKey queryIndex ∧ entry.query = query ∧ entry.WellShaped ∧
      (runQuery env type shouldExport config queryIndex query run dbResults).1.results =
        run.results ∧
      ∀ key name, (queryKey queryIndex ≠ key ∨ config.name ≠ name) →
        countAt (runQuery env type shouldExport config queryIndex query run
          dbResults).1.counts key name = countAt run.counts key name := by
  unfold runQuery
  split
  · rename_i rows st1 hexec
    split
    · rename_i length hlen
      simp only
      split
      · split
        · exact ⟨_, rfl, rfl, rfl, Or.inl ⟨rows, length, rfl, hlen, rfl, rfl⟩, rfl,
            fun key name hne => countAt_recordCount_ne _ _ _ _ _ _ hne⟩
        · exact ⟨_, rfl, rfl, rfl, Or.inr ⟨_, rfl, rfl, rfl, rfl⟩, rfl,
            fun key name hne => countAt_recordCount_ne _ _ _ _ _ _ hne⟩
      · exact ⟨_, rfl, rfl, rfl, Or.inl ⟨rows, length, rfl, hlen, rfl, rfl⟩, rfl,
          fun key name hne => countAt_recordCount_ne _ _ _ _ _ _ hne⟩
    · exact ⟨_, rfl, rfl, rfl, Or.inr ⟨_, rfl, rfl, rfl, rfl⟩, rfl,
        fun key name _ => countAt_ensureCountKey _ _ _ _⟩
  · exact ⟨_, rfl, rfl, rfl, Or.inr ⟨_, rfl, rfl, rfl, rfl⟩, rfl, fun _ _ _ => rfl⟩

/-! ## The statement loop: what holds whatever the state -/

theorem runQueries_results (env : Env Row Conn) (type : String) (shouldExport : Bool)
    (config : ConnectionConfig) :
    ∀ (queries : List String) (queryIndex : Nat) (run : Run Row Conn)
      (dbResults : List (QueryResult Row)),
      (runQueries env type shouldExport config queries queryIndex run dbResults).1.results =
        run.results := by
  intro queries
  induction queries with
  | nil => intro _ _ _; rfl
  | cons query rest ih =>
    intro queryIndex run dbResults
    obtain ⟨entry, _, _, _, _, hres, _⟩ :=
      runQuery_step env type shouldExport config queryIndex query run dbResults
    rw [runQueries, ih, hres]

theorem runQueries_wellShaped (env : Env Row Conn) (type : String) (shouldExport : Bool)
    (config : ConnectionConfig) :
    ∀ (queries : List String) (queryIndex : Nat) (run : Run Row Conn)
      (dbResults : List (QueryResult Row)),
      (∀ entry ∈ dbResults, entry.WellShaped) →
      ∀ entry ∈ (runQueries env type shouldExport config queries queryIndex run dbResults).2,
        entry.WellShaped := by
  intro queries
  induction queries with
  | nil => intro _ _ _ h; exact h
  | cons query rest ih =>
    intro queryIndex run dbResults h
    obtain ⟨entry, hpush, _, _, hshape, _, _⟩ :=
      runQuery_step env type shouldExport config queryIndex query run dbResults
    rw [runQueries]
    apply ih
    rw [hpush]
    intro e he
    rcases List.mem_append.1 he with he | he
    · exact h e he
    · simp at he; subst he; exact hshape

/-- The entries of the statement loop: one per statement, in order, each with the label
and the text of its statement. -/
theorem runQueries_entries (env : Env Row Conn) (type : String) (shouldExport : Bool)
    (config : ConnectionConfig) :
    ∀ (queries : List String) (queryIndex : Nat) (run : Run Row Conn)
      (dbResults : List (QueryResult Row)),
      ∃ added : List (QueryResult Row),
        (runQueries env type shouldExport config queries queryIndex run dbResults).2 =
          dbResults ++ added ∧
        added.length = queries.length ∧
        ∀ i (h : i < queries.length), ∃ entry, added[i]? = some entry ∧
          entry.queryNumber = queryKey (queryIndex + i) ∧ entry.query = queries[i] := by
  intro queries
  induction queries with
  | nil => intro _ _ dbResults; exact ⟨[], by simp [runQueries], rfl, by simp⟩
  | cons query rest ih =>
    intro queryIndex run dbResults
    obtain ⟨entry, hpush, hnum, htext, _, _, _⟩ :=
      runQuery_step env type shouldExport config queryIndex query run dbResults
    obtain ⟨added, hadd, hlen, hall⟩ := ih (queryIndex + 1)
      (runQuery env type shouldExport config queryIndex query run dbResults).1
      (runQuery env type shouldExport config queryIndex query run dbResults).2
    refine ⟨entry :: added, ?_, by simp [hlen], ?_⟩
    · rw [runQueries, hadd, hpush]; simp
    · intro i hi
      cases i with
      | zero => exact ⟨entry, by simp, hnum, htext⟩
      | succ j =>
        obtain ⟨e, he, hn, ht⟩ := hall j (by simpa using hi)
        refine ⟨e, by simpa using he, ?_, by simpa using ht⟩
        rw [hn]; congr 1; omega

end DatabaseUtils

namespace DatabaseUtils

variable {Row Conn : Type}

/-! ## The methods in the state of the statement loop -/

theorem executedOn_append (name : String) (a b : List (Effect Row)) :
    executedOn name (a ++ b) = executedOn name a ++ executedOn name b := by
  simp [executedOn, List.filterMap_append]

theorem executeQuery_inLoop {env : Env Row Conn} {type : String} {driver : Driver Row Conn}
    {config : ConnectionConfig} {folder : String} {st : State Row Conn} {conn : Conn}
    (h : InLoop env type driver config folder st conn) (query : String) :
    executeQuery env type st query =
      ((driver.execute conn query).1,
        { st with
          currentConnection := some (driver.execute conn query).2
          effects := st.effects ++ [.execute (some config.name) query] }) := by
  simp [executeQuery, h.driver_eq, h.connection_eq, h.config_eq]

theorem ensureExecutionFolder_of_folder (env : Env Row Conn) (st : State Row Conn)
    (folder : String) (hf : st.executionFolder = some folder) (hne : folder ≠ "") :
    ensureExecutionFolder env st = (.ok folder, st) := by
  simp [ensureExecutionFolder, hf, hne]

/-- With the session folder set, `exportToExcel` changes nothing but the trace, to which
it adds its own entry mark followed by file-system calls only; its outcome is
`exportOutcome`. -/
theorem exportToExcel_of_folder (env : Env Row Conn) (st : State Row Conn) (folder : String)
    (hf : st.executionFolder = some folder) (hne : folder ≠ "") (data : QueryOutput Row)
    (queryIndex : Nat) (dbName : String) :
    ∃ more : List (Effect Row),
      exportToExcel env st data queryIndex dbName =
        (exportOutcome env folder data queryIndex dbName,
          { st with effects := st.effects ++ .exportToExcel queryIndex dbName :: more }) ∧
      (∀ name, executedOn name more = []) ∧
      (∀ j m, Effect.exportToExcel j m ∉ more) := by
  simp only [exportOutcome, exportToExcel, ensureExecutionFolder, hf, hne, if_false]
  cases hmk : env.mkdir (pathJoin folder "exports") with
  | error e =>
    exact ⟨[.mkdir (pathJoin folder "exports")], by simp, by simp [executedOn], by simp⟩
  | ok u =>
    simp only
    cases hw : env.writeFile
        (pathJoin (pathJoin folder "exports")
          (dbName ++ "_query_" ++ toString (queryIndex + 1) ++ ".xlsx")) (.workbook data) with
    | error e =>
      exact ⟨[.mkdir (pathJoin folder "exports"),
        .writeFile (pathJoin (pathJoin folder "exports")
          (dbName ++ "_query_" ++ toString (queryIndex + 1) ++ ".xlsx")) (.workbook data)],
        by simp,
        by simp [executedOn], by simp⟩
    | ok u =>
      exact ⟨[.mkdir (pathJoin folder "exports"),
        .writeFile (pathJoin (pathJoin folder "exports")
          (dbName ++ "_query_" ++ toString (queryIndex + 1) ++ ".xlsx")) (.workbook data)],
        by simp,
        by simp [executedOn], by simp⟩

/-- The test `rows.length > 0` of line 187 passes exactly when the package returned an
array that is not empty. -/
theorem isPositive_length (output : QueryOutput Row) (length : Option Nat)
    (hlen : output.length = .ok length) :
    isPositive length = true ↔ 0 < output.rowCount := by
  cases output with
  | array rows =>
    simp only [QueryOutput.length, Except.ok.injEq] at hlen
    subst hlen
    simp [isPositive, QueryOutput.rowCount]
  | header =>
    simp only [QueryOutput.length, Except.ok.injEq] at hlen
    subst hlen
    simp [isPositive, QueryOutput.rowCount]
  | undefined => simp [QueryOutput.length] at hlen

theorem rowCount_of_length_error (output : QueryOutput Row) (typeError : String)
    (hlen : output.length = .error typeError) : output.rowCount = 0 := by
  cases output with
  | array rows => simp [QueryOutput.length] at hlen
  | header => simp [QueryOutput.length] at hlen
  | undefined => rfl

/-- One iteration of the statement loop, in the state of the loop: what it does to the
instance, to `counts` and to `dbResults`, by the outcome of the statement. -/
theorem runQuery_inLoop {env : Env Row Conn} {type : String} {driver : Driver Row Conn}
    {config : ConnectionConfig} {folder : String} {run : Run Row Conn} {conn : Conn}
    (h : InLoop env type driver config folder run.self conn) (shouldExport : Bool)
    (queryIndex : Nat) (query : String) (dbResults : List (QueryResult Row)) :
    ∃ (more : List (Effect Row)) (entry : QueryResult Row),
      (runQuery env type shouldExport config queryIndex query run dbResults).1.self =
        { run.self with
          currentConnection := some (driver.execute conn query).2
          effects := run.self.effects ++ .execute (some config.name) query :: more } ∧
      (runQuery env type shouldExport config queryIndex query run dbResults).2 =
        dbResults ++ [entry] ∧
      (∀ name, executedOn name more = []) ∧
      (∀ j m, Effect.exportToExcel j m ∈ more → j = queryIndex ∧ m = config.name) ∧
      (∀ e, (driver.execute conn query).1 = .error e →
        entry = failureEntry queryIndex query e ∧
        (runQuery env type shouldExport config queryIndex query run dbResults).1.counts =
          run.counts ∧
        more = []) ∧
      (∀ output, (driver.execute conn query).1 = .ok output →
        (Effect.exportToExcel queryIndex config.name ∈ more ↔
          (shouldExport = true ∧ 0 < output.rowCount)) ∧
        (∀ typeError, output.length = .error typeError →
          entry = failureEntry queryIndex query typeError ∧
          (runQuery env type shouldExport config queryIndex query run dbResults).1.counts =
            ensureCountKey run.counts (queryKey queryIndex)) ∧
        (∀ length, output.length = .ok length →
          (runQuery env type shouldExport config queryIndex query run dbResults).1.counts =
            recordCount run.counts (queryKey queryIndex) config.name length ∧
          ((¬(shouldExport = true ∧ 0 < output.rowCount) ∧
              entry = outputEntry queryIndex query output length none) ∨
            (shouldExport = true ∧ 0 < output.rowCount ∧
              ∃ p, exportOutcome env folder output queryIndex config.name = .ok p ∧
                entry = outputEntry queryIndex query output length (some p)) ∨
            (shouldExport = true ∧ 0 < output.rowCount ∧
              ∃ e, exportOutcome env folder output queryIndex config.name = .error e ∧
                entry = failureEntry queryIndex query e)))) := by
  unfold runQuery
  rw [executeQuery_inLoop h query]
  cases hout : (driver.execute conn query).1 with
  | error e =>
    refine ⟨[], failureEntry queryIndex query e, rfl, rfl, by simp [executedOn], by simp, ?_, ?_⟩
    · intro e1 he1
      cases he1
      exact ⟨rfl, rfl, rfl⟩
    · intro output houtput
      cases houtput
  | ok output =>
    simp only
    cases hlen : output.length with
    | error typeError =>
      simp only
      refine ⟨[], failureEntry queryIndex query typeError, rfl, rfl, by simp [executedOn],
        by simp, ?_, ?_⟩
      · intro e1 he1; cases he1
      · intro output1 houtput1
        cases houtput1
        refine ⟨by simp [rowCount_of_length_error output typeError hlen], ?_, ?_⟩
        · intro typeError1 h1
          rw [hlen] at h1
          cases h1
          exact ⟨rfl, trivial⟩
        · intro length h1
          rw [hlen] at h1
          cases h1
    | ok length =>
      simp only
      have hpos := isPositive_length output length hlen
      by_cases hcond : shouldExport = true ∧ 0 < output.rowCount
      · have hc : (shouldExport && isPositive length) = true := by
          simp [hcond.1, hpos.2 hcond.2]
        rw [if_pos hc]
        obtain ⟨more, hexp, hexec, hmarks⟩ := exportToExcel_of_folder env
          { run.self with
            currentConnection := some (driver.execute conn query).2
            effects := run.self.effects ++ [.execute (some config.name) query] }
          folder h.folder_eq h.folder_ne output queryIndex config.name
        rw [hexp]
        have hmem : ∀ j m, Effect.exportToExcel j m ∈
            (Effect.exportToExcel queryIndex config.name :: more : List (Effect Row)) →
            j = queryIndex ∧ m = config.name := by
          intro j m hjm
          rcases List.mem_cons.1 hjm with hjm | hjm
          · cases hjm; exact ⟨rfl, rfl⟩
          · exact absurd hjm (hmarks j m)
        have hexec1 : ∀ name, executedOn name
            (Effect.exportToExcel queryIndex config.name :: more : List (Effect Row)) = [] := by
          intro name
          have := hexec name
          simpa [executedOn] using this
        cases hres : exportOutcome env folder output queryIndex config.name with
        | ok p =>
          refine ⟨.exportToExcel queryIndex config.name :: more,
            outputEntry queryIndex query output length (some p), by simp, rfl, hexec1, hmem,
            ?_, ?_⟩
          · intro e1 he1; cases he1
          · intro output1 houtput1
            cases houtput1
            refine ⟨by simp [hcond.1, hcond.2], ?_, ?_⟩
            · intro typeError1 h1
              rw [hlen] at h1
              cases h1
            · intro length1 h1
              rw [hlen] at h1
              cases h1
              exact ⟨rfl, Or.inr (Or.inl ⟨hcond.1, hcond.2, p, hres, rfl⟩)⟩
        | error e =>
          refine ⟨.exportToExcel queryIndex config.name :: more,
            failureEntry queryIndex query e, by simp, rfl, hexec1, hmem, ?_, ?_⟩
          · intro e1 he1; cases he1
          · intro output1 houtput1
            cases houtput1
            refine ⟨by simp [hcond.1, hcond.2], ?_, ?_⟩
            · intro typeError1 h1
              rw [hlen] at h1
              cases h1
            · intro length1 h1
              rw [hlen] at h1
              cases h1
              exact ⟨rfl, Or.inr (Or.inr ⟨hcond.1, hcond.2, e, hres, rfl⟩)⟩
      · have hc : ¬ ((shouldExport && isPositive length) = true) := by
          intro hb
          simp only [Bool.and_eq_true] at hb
          exact hcond ⟨hb.1, hpos.1 hb.2⟩
        rw [if_neg hc]
        refine ⟨[], outputEntry queryIndex query output length none, rfl, rfl,
          by simp [executedOn], by simp, ?_, ?_⟩
        · intro e1 he1; cases he1
        · intro output1 houtput1
          cases houtput1
          refine ⟨by simpa using hcond, ?_, ?_⟩
          · intro typeError1 h1
            rw [hlen] at h1
            cases h1
          · intro length1 h1
            rw [hlen] at h1
            cases h1
            exact ⟨rfl, Or.inl ⟨hcond, rfl⟩⟩

end DatabaseUtils

namespace DatabaseUtils

variable {Row Conn : Type}

/-! ## The statement loop in the state of the loop -/

theorem runQuery_countAt_other (env : Env Row Conn) (type : String) (shouldExport : Bool)
    (config : ConnectionConfig) (queryIndex : Nat) (query : String) (run : Run Row Conn)
    (dbResults : List (QueryResult Row)) (key name : String)
    (hne : queryKey queryIndex ≠ key ∨ config.name ≠ name) :
    countAt (runQuery env type shouldExport config queryIndex query run dbResults).1.counts
      key name = countAt run.counts key name := by
  obtain ⟨entry, _, _, _, _, _, hcounts⟩ :=
    runQuery_step env type shouldExport config queryIndex query run dbResults
  exact hcounts key name hne

theorem runQueries_countAt_other (env : Env Row Conn) (type : String) (shouldExport : Bool)
    (config : ConnectionConfig) (key name : String) :
    ∀ (queries : List String) (queryIndex : Nat) (run : Run Row Conn)
      (dbResults : List (QueryResult Row)),
      (config.name ≠ name ∨ ∀ j, j < queries.length → queryKey (queryIndex + j) ≠ key) →
      countAt (runQueries env type shouldExport config queries queryIndex run dbResults).1.counts
        key name = countAt run.counts key name := by
  intro queries
  induction queries with
  | nil => intro _ _ _ _; rfl
  | cons query rest ih =>
    intro queryIndex run dbResults hne
    rw [runQueries, ih]
    · apply runQuery_countAt_other
      rcases hne with h | h
      · exact Or.inr h
      · exact Or.inl (by simpa using h 0 (by simp))
    · rcases hne with h | h
      · exact Or.inl h
      · refine Or.inr (fun j hj => ?_)
        have := h (j + 1) (by simpa using hj)
        rwa [show queryIndex + (j + 1) = queryIndex + 1 + j by omega] at this

theorem connBefore_zero (driver : Driver Row Conn) (conn : Conn) (queries : List String) :
    connBefore driver conn queries 0 = conn := by
  simp [connBefore]

theorem connBefore_succ (driver : Driver Row Conn) (conn : Conn) (query : String)
    (rest : List String) (i : Nat) :
    connBefore driver conn (query :: rest) (i + 1) =
      connBefore driver (driver.execute conn query).2 rest i := by
  simp [connBefore]

theorem runQuery_inLoop_next {env : Env Row Conn} {type : String} {driver : Driver Row Conn}
    {config : ConnectionConfig} {folder : String} {run : Run Row Conn} {conn : Conn}
    (h : InLoop env type driver config folder run.self conn) (shouldExport : Bool)
    (queryIndex : Nat) (query : String) (dbResults : List (QueryResult Row)) :
    InLoop env type driver config folder
      (runQuery env type shouldExport config queryIndex query run dbResults).1.self
      (driver.execute conn query).2 := by
  obtain ⟨more, entry, hself, _⟩ := runQuery_inLoop h shouldExport queryIndex query dbResults
  rw [hself]
  exact ⟨h.driver_eq, rfl, h.config_eq, h.folder_eq, h.folder_ne⟩

/-- The statement loop in the state of the loop: every statement is executed, in order,
on the connection left by the statements before it, and the statement at position `i`
leaves its entry at position `i`, its count and its export mark according to its
outcome. -/
theorem runQueries_inLoop {env : Env Row Conn} {type : String} {driver : Driver Row Conn}
    {config : ConnectionConfig} {folder : String} (shouldExport : Bool) :
    ∀ (queries : List String) (queryIndex : Nat) (run : Run Row Conn) (conn : Conn)
      (dbResults : List (QueryResult Row)),
      InLoop env type driver config folder run.self conn →
      ∃ (added : List (QueryResult Row)) (trace : List (Effect Row)),
        (runQueries env type shouldExport config queries queryIndex run dbResults).2 =
          dbResults ++ added ∧
        (runQueries env type shouldExport config queries queryIndex run dbResults).1.self.effects =
          run.self.effects ++ trace ∧
        InLoop env type driver config folder
          (runQueries env type shouldExport config queries queryIndex run dbResults).1.self
          (connBefore driver conn queries queries.length) ∧
        (∀ name, executedOn name trace = if name = config.name then queries else []) ∧
        (∀ j m, Effect.exportToExcel j m ∈ trace →
          queryIndex ≤ j ∧ j < queryIndex + queries.length ∧ m = config.name) ∧
        ∀ i (hi : i < queries.length),
          (∀ e, (driver.execute (connBefore driver conn queries i) queries[i]).1 = .error e →
            added[i]? = some (failureEntry (queryIndex + i) queries[i] e) ∧
            countAt (runQueries env type shouldExport config queries queryIndex run
                dbResults).1.counts (queryKey (queryIndex + i)) config.name =
              countAt run.counts (queryKey (queryIndex + i)) config.name) ∧
          (∀ output,
            (driver.execute (connBefore driver conn queries i) queries[i]).1 = .ok output →
            (Effect.exportToExcel (queryIndex + i) config.name ∈ trace ↔
              (shouldExport = true ∧ 0 < output.rowCount)) ∧
            (∀ typeError, output.length = .error typeError →
              added[i]? = some (failureEntry (queryIndex + i) queries[i] typeError) ∧
              countAt (runQueries env type shouldExport config queries queryIndex run
                  dbResults).1.counts (queryKey (queryIndex + i)) config.name =
                countAt run.counts (queryKey (queryIndex + i)) config.name) ∧
            (∀ length, output.length = .ok length →
              (config.name ≠ "__proto__" →
                countAt (runQueries env type shouldExport config queries queryIndex run
                    dbResults).1.counts (queryKey (queryIndex + i)) config.name =
                  some length) ∧
              ((¬(shouldExport = true ∧ 0 < output.rowCount) ∧
                  added[i]? =
                    some (outputEntry (queryIndex + i) queries[i] output length none)) ∨
                (shouldExport = true ∧ 0 < output.rowCount ∧
                  ∃ p, exportOutcome env folder output (queryIndex + i) config.name = .ok p ∧
                    added[i]? =
                      some (outputEntry (queryIndex + i) queries[i] output length (some p))) ∨
                (shouldExport = true ∧ 0 < output.rowCount ∧
                  ∃ e, exportOutcome env folder output (queryIndex + i) config.name =
                      .error e ∧
                    added[i]? = some (failureEntry (queryIndex + i) queries[i] e))))) := by
  intro queries
  induction queries with
  | nil =>
    intro queryIndex run conn dbResults h
    refine ⟨[], [], by simp [runQueries], by simp [runQueries], ?_, ?_, by simp, ?_⟩
    · simpa [runQueries, connBefore] using h
    · intro name; simp [executedOn]
    · intro i hi; simp at hi
  | cons query rest ih =>
    intro queryIndex run conn dbResults h
    obtain ⟨more, entry, hself, hpush, hexec, hmarks, herr, hok⟩ :=
      runQuery_inLoop h shouldExport queryIndex query dbResults
    have hnext := runQuery_inLoop_next h shouldExport queryIndex query dbResults
    obtain ⟨added, trace, hadd, htrace, hloop, hexecs, hmarkss, hall⟩ :=
      ih (queryIndex + 1) _ _
        (runQuery env type shouldExport config queryIndex query run dbResults).2 hnext
    have hrest : ∀ key, (∀ j, j < rest.length → queryKey (queryIndex + 1 + j) ≠ key) →
        countAt (runQueries env type shouldExport config (query :: rest) queryIndex run
          dbResults).1.counts key config.name =
        countAt (runQuery env type shouldExport config queryIndex query run
          dbResults).1.counts key config.name := by
      intro key hkey
      rw [runQueries]
      exact runQueries_countAt_other env type shouldExport config key config.name rest _ _ _
        (Or.inr hkey)
    have hkey0 : ∀ j, j < rest.length → queryKey (queryIndex + 1 + j) ≠ queryKey queryIndex := by
      intro j _ hEq
      have := queryKey_injective _ _ hEq
      omega
    have hlater : ∀ j m, Effect.exportToExcel j m ∈ trace → j ≠ queryIndex := by
      intro j m hjm
      have := (hmarkss j m hjm).1
      omega
    refine ⟨entry :: added, .execute (some config.name) query :: more ++ trace, ?_, ?_, ?_, ?_,
      ?_, ?_⟩
    · rw [runQueries, hadd, hpush]; simp
    · rw [runQueries, htrace, hself]; simp
    · rw [runQueries]
      simpa [connBefore] using hloop
    · intro name
      have h1 := hexec name
      have h2 := hexecs name
      rw [show (Effect.execute (some config.name) query :: more ++ trace : List (Effect Row)) =
        [Effect.execute (some config.name) query] ++ more ++ trace by simp]
      rw [executedOn_append, executedOn_append, h1, h2]
      by_cases hn : name = config.name
      · subst hn; simp [executedOn]
      · have hn1 : ¬ config.name = name := fun h => hn h.symm
        simp [executedOn, hn, hn1]
    · intro j m hjm
      simp only [List.cons_append, List.mem_cons, List.mem_append] at hjm
      rcases hjm with hjm | hjm | hjm
      · cases hjm
      · obtain ⟨rfl, rfl⟩ := hmarks j m hjm
        simp
      · obtain ⟨h1, h2, h3⟩ := hmarkss j m hjm
        refine ⟨by omega, ?_, h3⟩
        simp only [List.length_cons]; omega
    · intro i hi
      cases i with
      | zero =>
        simp only [connBefore_zero, List.getElem_cons_zero, Nat.add_zero]
        constructor
        · intro e he
          obtain ⟨hentry, hcounts, _⟩ := herr e he
          refine ⟨by simp [hentry], ?_⟩
          rw [hrest _ hkey0, hcounts]
        · intro output houtput
          obtain ⟨hmark, hthrow, hread⟩ := hok output houtput
          refine ⟨?_, ?_, ?_⟩
          · rw [← hmark]
            simp only [List.cons_append, List.mem_cons, List.mem_append]
            constructor
            · rintro (h1 | h1 | h1)
              · cases h1
              · exact h1
              · exact absurd rfl (hlater _ _ h1)
            · intro h1; exact Or.inr (Or.inl h1)
          · intro typeError hlen
            obtain ⟨hentry, hcounts⟩ := hthrow typeError hlen
            refine ⟨by simp [hentry], ?_⟩
            rw [hrest _ hkey0, hcounts, countAt_ensureCountKey]
          · intro length hlen
            obtain ⟨hcounts, hentry⟩ := hread length hlen
            refine ⟨?_, ?_⟩
            · intro hname
              rw [hrest _ hkey0, hcounts, countAt_recordCount_self _ _ _ _ hname]
            · rcases hentry with ⟨h1, h2⟩ | ⟨h1, h2, p, h3, h4⟩ | ⟨h1, h2, e, h3, h4⟩
              · exact Or.inl ⟨h1, by simp [h2]⟩
              · exact Or.inr (Or.inl ⟨h1, h2, p, h3, by simp [h4]⟩)
              · exact Or.inr (Or.inr ⟨h1, h2, e, h3, by simp [h4]⟩)
      | succ k =>
        have hk : k < rest.length := by simpa using hi
        obtain ⟨hkerr, hkok⟩ := hall k hk
        have hidx : queryIndex + (k + 1) = queryIndex + 1 + k := by omega
        have hkeyne : queryKey queryIndex ≠ queryKey (queryIndex + 1 + k) := by
          intro hEq
          have := queryKey_injective _ _ hEq
          omega
        have hstep : countAt (runQuery env type shouldExport config queryIndex query run
            dbResults).1.counts (queryKey (queryIndex + 1 + k)) config.name =
            countAt run.counts (queryKey (queryIndex + 1 + k)) config.name :=
          runQuery_countAt_other env type shouldExport config queryIndex query run dbResults _ _
            (Or.inl hkeyne)
        simp only [connBefore_succ, List.getElem_cons_succ, hidx]
        constructor
        · intro e he
          obtain ⟨hentry, hcounts⟩ := hkerr e he
          refine ⟨by simpa using hentry, ?_⟩
          rw [runQueries, hcounts, hstep]
        · intro output houtput
          obtain ⟨hmark, hthrow, hread⟩ := hkok output houtput
          refine ⟨?_, ?_, ?_⟩
          · rw [← hmark]
            simp only [List.cons_append, List.mem_cons, List.mem_append]
            constructor
            · rintro (h1 | h1 | h1)
              · cases h1
              · have := (hmarks _ _ h1).1
                omega
              · exact h1
            · intro h1; exact Or.inr (Or.inr h1)
          · intro typeError hlen
            obtain ⟨hentry, hcounts⟩ := hthrow typeError hlen
            refine ⟨by simpa using hentry, ?_⟩
            rw [runQueries, hcounts, hstep]
          · intro length hlen
            obtain ⟨hcounts, hentry⟩ := hread length hlen
            refine ⟨?_, ?_⟩
            · intro hname
              rw [runQueries, hcounts hname]
            · rcases hentry with ⟨h1, h2⟩ | ⟨h1, h2, p, h3, h4⟩ | ⟨h1, h2, e, h3, h4⟩
              · exact Or.inl ⟨h1, by simpa using h2⟩
              · exact Or.inr (Or.inl ⟨h1, h2, p, h3, by simpa using h4⟩)
              · exact Or.inr (Or.inr ⟨h1, h2, e, h3, by simpa using h4⟩)

end DatabaseUtils

namespace DatabaseUtils

variable {Row Conn : Type}

/-! ## One configuration -/

theorem disconnect_spec (env : Env Row Conn) (type : String) (st : State Row Conn) :
    ∃ closing : List (Effect Row),
      (disconnect env type st).effects = st.effects ++ closing ∧
      (disconnect env type st).executionFolder = st.executionFolder ∧
      (∀ name, executedOn name closing = []) ∧
      (∀ j m, Effect.exportToExcel j m ∉ closing) := by
  cases hcc : st.currentConnection with
  | none =>
    exact ⟨[], by simp [disconnect, hcc], by simp [disconnect, hcc], by simp [executedOn],
      by simp⟩
  | some connection =>
    cases hd : driverFor env type with
    | none =>
      exact ⟨[], by simp [disconnect, hcc, hd], by simp [disconnect, hcc, hd],
        by simp [executedOn], by simp⟩
    | some driver =>
      cases hcl : driver.close connection with
      | ok u =>
        exact ⟨[.closeConnection (st.currentConfig.map (·.name))],
          by simp [disconnect, hcc, hd, hcl], by simp [disconnect, hcc, hd, hcl],
          by simp [executedOn], by simp⟩
      | error e =>
        exact ⟨[.closeConnection (st.currentConfig.map (·.name))],
          by simp [disconnect, hcc, hd, hcl], by simp [disconnect, hcc, hd, hcl],
          by simp [executedOn], by simp⟩

/-- The outcome of `connect` depends on the type, the packages and the configuration
only. -/
theorem connect_outcome (env : Env Row Conn) (type : String) (st s : State Row Conn)
    (config : ConnectionConfig) :
    (connect env type st config).1 = (connect env type s config).1 := by
  unfold connect
  cases driverFor env type with
  | none => rfl
  | some driver =>
    simp only
    cases driver.createConnection config <;> rfl

/-- The body of the loop over the configurations when `connect` throws: only
`results[config.name]` changes, to the failure marker. -/
theorem processConfig_of_error (env : Env Row Conn) (type : String) (queries : List String)
    (shouldExport : Bool) (run : Run Row Conn) (config : ConnectionConfig) (dbError : String)
    (hfail : (connect env type run.self config).1 = .error dbError) :
    ∃ trace : List (Effect Row),
      (processConfig env type queries shouldExport run config).results =
        run.results.set config.name (.failed dbError 0) ∧
      (processConfig env type queries shouldExport run config).counts = run.counts ∧
      (processConfig env type queries shouldExport run config).self.effects =
        run.self.effects ++ trace ∧
      (processConfig env type queries shouldExport run config).self.executionFolder =
        run.self.executionFolder ∧
      (∀ name, executedOn name trace = []) ∧
      (∀ j m, Effect.exportToExcel j m ∉ trace) := by
  have hst : ∃ opening : List (Effect Row),
      (connect env type run.self config).2.effects = run.self.effects ++ opening ∧
      (connect env type run.self config).2.executionFolder = run.self.executionFolder ∧
      (∀ name, executedOn name opening = []) ∧
      (∀ j m, Effect.exportToExcel j m ∉ opening) := by
    unfold connect
    cases driverFor env type with
    | none => exact ⟨[], by simp, rfl, by simp [executedOn], by simp⟩
    | some driver =>
      simp only
      cases driver.createConnection config with
      | ok c => exact ⟨[.createConnection config], rfl, rfl, by simp [executedOn], by simp⟩
      | error e => exact ⟨[.createConnection config], rfl, rfl, by simp [executedOn], by simp⟩
  obtain ⟨opening, ho1, ho2, ho3, ho4⟩ := hst
  obtain ⟨closing, hc1, hc2, hc3, hc4⟩ :=
    disconnect_spec env type (connect env type run.self config).2
  unfold processConfig
  split
  · rename_i c st1 heq
    rw [heq] at hfail
    cases hfail
  · rename_i e st1 heq
    rw [heq] at hfail ho1 ho2 hc1 hc2
    cases hfail
    simp only at ho1 ho2 hc1 hc2
    refine ⟨opening ++ closing, rfl, rfl, ?_, ?_, ?_, ?_⟩
    · simp only [hc1, ho1, List.append_assoc]
    · simp only [hc2, ho2]
    · intro name; rw [executedOn_append, ho3, hc3]; rfl
    · intro j m hjm
      rcases List.mem_append.1 hjm with h | h
      · exact ho4 j m h
      · exact hc4 j m h

/-- The body of the loop over the configurations when `connect` succeeds: the statement
loop runs in the state of the loop, then its entries become `results[config.name]`. -/
theorem processConfig_of_ok (env : Env Row Conn) (type : String) (queries : List String)
    (shouldExport : Bool) (run : Run Row Conn) (config : ConnectionConfig)
    (driver : Driver Row Conn) (conn : Conn) (folder : String)
    (hdriver : driverFor env type = some driver)
    (hconn : driver.createConnection config = .ok conn)
    (hfolder : run.self.executionFolder = some folder) (hne : folder ≠ "") :
    ∃ (run1 : Run Row Conn) (closing : List (Effect Row)),
      InLoop env type driver config folder run1.self conn ∧
      run1.counts = run.counts ∧
      run1.self.effects = run.self.effects ++ [.createConnection config] ∧
      (processConfig env type queries shouldExport run config).results =
        run.results.set config.name
          (.queries (runQueries env type shouldExport config queries 0 run1 []).2) ∧
      (processConfig env type queries shouldExport run config).counts =
        (runQueries env type shouldExport config queries 0 run1 []).1.counts ∧
      (processConfig env type queries shouldExport run config).self.effects =
        (runQueries env type shouldExport config queries 0 run1 []).1.self.effects ++ closing ∧
      (processConfig env type queries shouldExport run config).self.executionFolder =
        some folder ∧
      (∀ name, executedOn name closing = []) ∧
      (∀ j m, Effect.exportToExcel j m ∉ closing) := by
  have hc : connect env type run.self config =
      (.ok conn,
        { run.self with
          effects := run.self.effects ++ [.createConnection config]
          currentConnection := some conn
          currentConfig := some config }) := by
    simp [connect, hdriver, hconn]
  have hloop : InLoop env type driver config folder
      { run.self with
        effects := run.self.effects ++ [.createConnection config]
        currentConnection := some conn
        currentConfig := some config } conn :=
    ⟨hdriver, rfl, rfl, hfolder, hne⟩
  unfold processConfig
  rw [hc]
  simp only
  obtain ⟨added, trace, _, _, hafter, _, _, _⟩ :=
    @runQueries_inLoop Row Conn env type driver config folder shouldExport queries 0
      { run with
        self := { run.self with
          effects := run.self.effects ++ [.createConnection config]
          currentConnection := some conn
          currentConfig := some config }
        logs := run.logs ++ ["Connected to database: " ++ config.name] } conn [] hloop
  obtain ⟨closing, hc1, hc2, hc3, hc4⟩ := disconnect_spec env type
    (runQueries env type shouldExport config queries 0
      { run with
        self := { run.self with
          effects := run.self.effects ++ [.createConnection config]
          currentConnection := some conn
          currentConfig := some config }
        logs := run.logs ++ ["Connected to database: " ++ config.name] } []).1.self
  refine ⟨{ run with
      self := { run.self with
        effects := run.self.effects ++ [.createConnection config]
        currentConnection := some conn
        currentConfig := some config }
      logs := run.logs ++ ["Connected to database: " ++ config.name] },
    closing, hloop, rfl, rfl, ?_, rfl, hc1, ?_, hc3, hc4⟩
  · rw [runQueries_results]
  · rw [hc2]; exact hafter.folder_eq

end DatabaseUtils

namespace DatabaseUtils

variable {Row Conn : Type}

/-! ## Two runs of the statement loop from states that agree on what matters -/

theorem runQuery_congr {env : Env Row Conn} {type : String} {driver : Driver Row Conn}
    {config : ConnectionConfig} {folder : String} {run1 run2 : Run Row Conn} {conn : Conn}
    (h1 : InLoop env type driver config folder run1.self conn)
    (h2 : InLoop env type driver config folder run2.self conn)
    (hcounts : run1.counts = run2.counts) (shouldExport : Bool) (queryIndex : Nat)
    (query : String) (dbResults : List (QueryResult Row)) :
    (runQuery env type shouldExport config queryIndex query run1 dbResults).2 =
      (runQuery env type shouldExport config queryIndex query run2 dbResults).2 ∧
    (runQuery env type shouldExport config queryIndex query run1 dbResults).1.counts =
      (runQuery env type shouldExport config queryIndex query run2 dbResults).1.counts := by
  obtain ⟨more1, entry1, _, hpush1, _, _, herr1, hok1⟩ :=
    runQuery_inLoop h1 shouldExport queryIndex query dbResults
  obtain ⟨more2, entry2, _, hpush2, _, _, herr2, hok2⟩ :=
    runQuery_inLoop h2 shouldExport queryIndex query dbResults
  rw [hpush1, hpush2]
  cases hout : (driver.execute conn query).1 with
  | error e =>
    obtain ⟨he1, hc1, _⟩ := herr1 e hout
    obtain ⟨he2, hc2, _⟩ := herr2 e hout
    rw [he1, he2, hc1, hc2, hcounts]
    exact ⟨rfl, rfl⟩
  | ok output =>
    obtain ⟨_, hthrow1, hread1⟩ := hok1 output hout
    obtain ⟨_, hthrow2, hread2⟩ := hok2 output hout
    cases hlen : output.length with
    | error typeError =>
      obtain ⟨he1, hc1⟩ := hthrow1 typeError hlen
      obtain ⟨he2, hc2⟩ := hthrow2 typeError hlen
      rw [he1, he2, hc1, hc2, hcounts]
      exact ⟨rfl, rfl⟩
    | ok length =>
      obtain ⟨hc1, hentry1⟩ := hread1 length hlen
      obtain ⟨hc2, hentry2⟩ := hread2 length hlen
      rw [hc1, hc2, hcounts]
      refine ⟨?_, rfl⟩
      congr 2
      rcases hentry1 with ⟨a1, b1⟩ | ⟨a1, a2, p1, b1, c1⟩ | ⟨a1, a2, e1, b1, c1⟩ <;>
        rcases hentry2 with ⟨d1, f1⟩ | ⟨d1, d2, p2, f1, g1⟩ | ⟨d1, d2, e2, f1, g1⟩
      · rw [b1, f1]
      · exact absurd ⟨d1, d2⟩ a1
      · exact absurd ⟨d1, d2⟩ a1
      · exact absurd ⟨a1, a2⟩ d1
      · rw [b1] at f1; cases f1; rw [c1, g1]
      · rw [b1] at f1; cases f1
      · exact absurd ⟨a1, a2⟩ d1
      · rw [b1] at f1; cases f1
      · rw [b1] at f1; cases f1; rw [c1, g1]

theorem runQueries_congr {env : Env Row Conn} {type : String} {driver : Driver Row Conn}
    {config : ConnectionConfig} {folder : String} (shouldExport : Bool) :
    ∀ (queries : List String) (queryIndex : Nat) (run1 run2 : Run Row Conn) (conn : Conn)
      (dbResults : List (QueryResult Row)),
      InLoop env type driver config folder run1.self conn →
      InLoop env type driver config folder run2.self conn →
      run1.counts = run2.counts →
      (runQueries env type shouldExport config queries queryIndex run1 dbResults).2 =
        (runQueries env type shouldExport config queries queryIndex run2 dbResults).2 ∧
      (runQueries env type shouldExport config queries queryIndex run1 dbResults).1.counts =
        (runQueries env type shouldExport config queries queryIndex run2 dbResults).1.counts := by
  intro queries
  induction queries with
  | nil => intro _ _ _ _ _ _ _ hc; exact ⟨rfl, hc⟩
  | cons query rest ih =>
    intro queryIndex run1 run2 conn dbResults h1 h2 hc
    obtain ⟨hdb, hcounts⟩ := runQuery_congr h1 h2 hc shouldExport queryIndex query dbResults
    rw [runQueries, runQueries, hdb]
    exact ih (queryIndex + 1) _ _ _ _
      (runQuery_inLoop_next h1 shouldExport queryIndex query dbResults)
      (runQuery_inLoop_next h2 shouldExport queryIndex query dbResults) hcounts

/-- Two runs of the body of the configuration loop on the same configuration, from
states with the same session folder and the same `counts`, write the same value to
`results[config.name]` and end with the same `counts`. -/
theorem processConfig_congr (env : Env Row Conn) (type : String) (queries : List String)
    (shouldExport : Bool) (run1 run2 : Run Row Conn) (config : ConnectionConfig)
    (folder : String) (hf1 : run1.self.executionFolder = some folder)
    (hf2 : run2.self.executionFolder = some folder) (hne : folder ≠ "")
    (hcounts : run1.counts = run2.counts) :
    (processConfig env type queries shouldExport run1 config).counts =
      (processConfig env type queries shouldExport run2 config).counts ∧
    ∃ value,
      (processConfig env type queries shouldExport run1 config).results =
        run1.results.set config.name value ∧
      (processConfig env type queries shouldExport run2 config).results =
        run2.results.set config.name value := by
  cases hout : (connect env type run1.self config).1 with
  | error e =>
    have hout2 : (connect env type run2.self config).1 = .error e := by
      rw [connect_outcome env type run2.self run1.self config, hout]
    obtain ⟨_, hr1, hc1, _⟩ := processConfig_of_error env type queries shouldExport run1 config e hout
    obtain ⟨_, hr2, hc2, _⟩ := processConfig_of_error env type queries shouldExport run2 config e hout2
    exact ⟨by rw [hc1, hc2, hcounts], _, hr1, hr2⟩
  | ok conn =>
    have hd : ∃ driver, driverFor env type = some driver ∧
        driver.createConnection config = .ok conn := by
      unfold connect at hout
      cases hdr : driverFor env type with
      | none => simp [hdr] at hout
      | some driver =>
        refine ⟨driver, rfl, ?_⟩
        simp only [hdr] at hout
        cases hcc : driver.createConnection config with
        | error e => simp [hcc] at hout
        | ok c => simp [hcc] at hout; rw [hout]
    obtain ⟨driver, hdriver, hconn⟩ := hd
    obtain ⟨r1, _, hl1, hrc1, _, hres1, hcnt1, _⟩ := processConfig_of_ok env type queries
      shouldExport run1 config driver conn folder hdriver hconn hf1 hne
    obtain ⟨r2, _, hl2, hrc2, _, hres2, hcnt2, _⟩ := processConfig_of_ok env type queries
      shouldExport run2 config driver conn folder hdriver hconn hf2 hne
    obtain ⟨hdb, hcs⟩ := runQueries_congr shouldExport queries 0 r1 r2 conn [] hl1 hl2
      (by rw [hrc1, hrc2, hcounts])
    refine ⟨by rw [hcnt1, hcnt2, hcs], _, hres1, ?_⟩
    rw [hres2, hdb]

end DatabaseUtils

namespace DatabaseUtils

variable {Row Conn : Type}

/-! ## The loop over the configurations -/

/-- The two ways the body of the configuration loop can go. -/
theorem connect_cases (env : Env Row Conn) (type : String) (st : State Row Conn)
    (config : ConnectionConfig) :
    (∃ e, (connect env type st config).1 = .error e) ∨
    (∃ driver conn, driverFor env type = some driver ∧
      driver.createConnection config = .ok conn) := by
  unfold connect
  cases hdr : driverFor env type with
  | none => exact Or.inl ⟨_, rfl⟩
  | some driver =>
    simp only
    cases hcc : driver.createConnection config with
    | error e => exact Or.inl ⟨e, rfl⟩
    | ok c => exact Or.inr ⟨driver, c, rfl, hcc⟩

/-- What the body of the configuration loop leaves alone: the session folder, and
whatever belongs to a database of another name. -/
theorem processConfig_frame (env : Env Row Conn) (type : String) (queries : List String)
    (shouldExport : Bool) (run : Run Row Conn) (config : ConnectionConfig) (folder : String)
    (hfolder : run.self.executionFolder = some folder) (hne : folder ≠ "") :
    (processConfig env type queries shouldExport run config).self.executionFolder =
      some folder ∧
    (∀ name, name ≠ config.name →
      (processConfig env type queries shouldExport run config).results.get name =
        run.results.get name) ∧
    (∀ key name, name ≠ config.name →
      countAt (processConfig env type queries shouldExport run config).counts key name =
        countAt run.counts key name) ∧
    ∃ trace : List (Effect Row),
      (processConfig env type queries shouldExport run config).self.effects =
        run.self.effects ++ trace ∧
      (∀ name, name ≠ config.name → executedOn name trace = []) ∧
      (∀ j m, Effect.exportToExcel j m ∈ trace → m = config.name) := by
  rcases connect_cases env type run.self config with ⟨e, hfail⟩ | ⟨driver, conn, hd, hc⟩
  · obtain ⟨trace, hres, hcounts, heff, hfold, hexec, hmarks⟩ :=
      processConfig_of_error env type queries shouldExport run config e hfail
    refine ⟨by rw [hfold, hfolder], ?_, ?_, trace, heff, fun name _ => hexec name, ?_⟩
    · intro name hname
      rw [hres, Dict.get_set_ne _ _ _ _ (Ne.symm hname)]
    · intro key name _
      rw [hcounts]
    · intro j m hjm
      exact absurd hjm (hmarks j m)
  · obtain ⟨run1, closing, hloop, hrc, heff1, hres, hcounts, heff, hfold, hexec, hmarks⟩ :=
      processConfig_of_ok env type queries shouldExport run config driver conn folder hd hc
        hfolder hne
    obtain ⟨added, trace, _, htrace, _, hexecs, hmarkss, _⟩ :=
      runQueries_inLoop shouldExport queries 0 run1 conn [] hloop
    refine ⟨hfold, ?_, ?_, [.createConnection config] ++ trace ++ closing, ?_, ?_, ?_⟩
    · intro name hname
      rw [hres, Dict.get_set_ne _ _ _ _ (Ne.symm hname)]
    · intro key name hname
      rw [hcounts, runQueries_countAt_other env type shouldExport config key name queries 0
        run1 [] (Or.inl (Ne.symm hname)), hrc]
    · rw [heff, htrace, heff1]; simp
    · intro name hname
      rw [executedOn_append, executedOn_append, hexecs name, hexec name, if_neg hname]
      simp [executedOn]
    · intro j m hjm
      simp only [List.mem_append, List.mem_singleton] at hjm
      rcases hjm with (hjm | hjm) | hjm
      · cases hjm
      · exact (hmarkss j m hjm).2.2
      · exact absurd hjm (hmarks j m)

/-- The loop over configurations none of which is called `name` leaves alone what
belongs to `name`. -/
theorem foldl_processConfig_frame (env : Env Row Conn) (type : String) (queries : List String)
    (shouldExport : Bool) (folder : String) (hne : folder ≠ "") (name : String) :
    ∀ (configs : List ConnectionConfig) (run : Run Row Conn),
      run.self.executionFolder = some folder →
      (∀ config ∈ configs, config.name ≠ name) →
      (configs.foldl (processConfig env type queries shouldExport) run).self.executionFolder =
        some folder ∧
      (configs.foldl (processConfig env type queries shouldExport) run).results.get name =
        run.results.get name ∧
      (∀ key, countAt (configs.foldl (processConfig env type queries shouldExport) run).counts
        key name = countAt run.counts key name) ∧
      ∃ trace : List (Effect Row),
        (configs.foldl (processConfig env type queries shouldExport) run).self.effects =
          run.self.effects ++ trace ∧
        executedOn name trace = [] ∧
        (∀ j, Effect.exportToExcel j name ∉ trace) := by
  intro configs
  induction configs with
  | nil =>
    intro run hf _
    exact ⟨hf, rfl, fun _ => rfl, [], by simp, by simp [executedOn], by simp⟩
  | cons config rest ih =>
    intro run hf hnames
    have hcn : name ≠ config.name := Ne.symm (hnames config (List.mem_cons_self _ _))
    obtain ⟨hf1, hres1, hcnt1, trace1, heff1, hexec1, hmarks1⟩ :=
      processConfig_frame env type queries shouldExport run config folder hf hne
    obtain ⟨hf2, hres2, hcnt2, trace2, heff2, hexec2, hmarks2⟩ :=
      ih (processConfig env type queries shouldExport run config) hf1
        (fun c hc => hnames c (List.mem_cons_of_mem _ hc))
    rw [List.foldl_cons]
    refine ⟨hf2, by rw [hres2, hres1 name hcn], fun key => by rw [hcnt2, hcnt1 key name hcn],
      trace1 ++ trace2, by rw [heff2, heff1, List.append_assoc], ?_, ?_⟩
    · rw [executedOn_append, hexec1 name hcn, hexec2]; rfl
    · intro j hj
      rcases List.mem_append.1 hj with h | h
      · exact hcn (hmarks1 j name h)
      · exact hmarks2 j h

/-- The loop over the configurations keeps the session folder. -/
theorem foldl_processConfig_folder (env : Env Row Conn) (type : String)
    (queries : List String) (shouldExport : Bool) (folder : String) (hne : folder ≠ "") :
    ∀ (configs : List ConnectionConfig) (run : Run Row Conn),
      run.self.executionFolder = some folder →
      (configs.foldl (processConfig env type queries shouldExport) run).self.executionFolder =
        some folder := by
  intro configs
  induction configs with
  | nil => intro run hf; exact hf
  | cons config rest ih =>
    intro run hf
    rw [List.foldl_cons]
    exact ih _ (processConfig_frame env type queries shouldExport run config folder hf hne).1

end DatabaseUtils

namespace DatabaseUtils

variable {Row Conn : Type}

/-! ## The whole run -/

theorem pathJoin_ne_empty (a b : String) : pathJoin a b ≠ "" := by
  intro h
  have h1 := congrArg String.length h
  simp only [pathJoin, String.length_append] at h1
  have h2 : ("/" : String).length = 1 := by decide
  have h3 : ("" : String).length = 0 := by decide
  omega

theorem executionFolderPath_ne_empty (env : Env Row Conn) : executionFolderPath env ≠ "" :=
  pathJoin_ne_empty _ _

theorem loopStart_folder (env : Env Row Conn) (st : State Row Conn) :
    (loopStart env st).self.executionFolder = some (executionFolderPath env) := by
  cases h : env.mkdir (executionFolderPath env) <;> simp [loopStart, createExecutionFolder, h]

theorem loopStart_effects (env : Env Row Conn) (st : State Row Conn) :
    (loopStart env st).self.effects = st.effects ++ [.mkdir (executionFolderPath env)] := by
  cases h : env.mkdir (executionFolderPath env) <;> simp [loopStart, createExecutionFolder, h]

/-- A run that returns hands back the `results` and `counts` of the loop over the
configurations, and ends by writing the log and the count summary. -/
theorem executeQueriesOnAllDbs_of_ok (env : Env Row Conn) (dbConfig : DbConfig)
    (st : State Row Conn) (queries : List String) (shouldExport : Bool) (r : RunResult Row)
    (h : (executeQueriesOnAllDbs env dbConfig st queries shouldExport).1 = .ok r) :
    r.results = (processConfigs env dbConfig queries shouldExport (loopStart env st)).results ∧
    r.counts = (processConfigs env dbConfig queries shouldExport (loopStart env st)).counts ∧
    r.queryMapping = buildQueryMap queries 0 [] ∧
    ∃ written : List (Effect Row),
      (executeQueriesOnAllDbs env dbConfig st queries shouldExport).2.effects =
        (processConfigs env dbConfig queries shouldExport (loopStart env st)).self.effects ++
          written ∧
      (∀ name, executedOn name written = []) ∧
      (∀ j m, Effect.exportToExcel j m ∉ written) := by
  have hfold : (processConfigs env dbConfig queries shouldExport
      (loopStart env st)).self.executionFolder = some (executionFolderPath env) :=
    foldl_processConfig_folder env dbConfig.type queries shouldExport
      (executionFolderPath env) (executionFolderPath_ne_empty env) dbConfig.configs
      (loopStart env st) (loopStart_folder env st)
  cases hmk : createExecutionFolder env st with
  | mk out st1 =>
    unfold executeQueriesOnAllDbs at h ⊢
    rw [hmk] at h ⊢
    have hls : loopStart env st = { self := st1, results := [], counts := [], logs := [] } := by
      simp [loopStart, hmk]
    cases out with
    | error e => simp at h
    | ok folder =>
      simp only at h ⊢
      rw [← hls] at h ⊢
      have hens := ensureExecutionFolder_of_folder env
        (processConfigs env dbConfig queries shouldExport (loopStart env st)).self
        (executionFolderPath env) hfold (executionFolderPath_ne_empty env)
      simp only [writeExecutionLogs, hens] at h ⊢
      cases hw : env.writeFile (pathJoin (executionFolderPath env) "logs.txt")
          (.logs (processConfigs env dbConfig queries shouldExport (loopStart env st)).logs) with
      | error e => simp [hw] at h
      | ok u =>
        simp only [hw, hfold] at h ⊢
        cases hwc : FileUtils.writeCountFile env
            (processConfigs env dbConfig queries shouldExport (loopStart env st)).counts
            (executionFolderPath env) none with
        | mk out2 effects =>
          have heffects : (∀ name, executedOn name effects = []) ∧
              (∀ j m, Effect.exportToExcel j m ∉ effects) := by
            unfold FileUtils.writeCountFile at hwc
            simp only [executionFolderPath_ne_empty env, if_false] at hwc
            split at hwc
            · cases hwc
              exact ⟨by simp [executedOn], by simp⟩
            · cases hwc
              exact ⟨by simp [executedOn], by simp⟩
          rw [hwc] at h
          cases out2 with
          | error e => simp at h
          | ok p =>
            simp only [Except.ok.injEq] at h
            subst h
            refine ⟨rfl, rfl, rfl,
              Effect.writeFile (pathJoin (executionFolderPath env) "logs.txt")
                (.logs (processConfigs env dbConfig queries shouldExport
                  (loopStart env st)).logs) :: effects, by simp, ?_, ?_⟩
            · intro name
              have := heffects.1 name
              simpa [executedOn] using this
            · intro j m hjm
              rcases List.mem_cons.1 hjm with h1 | h1
              · cases h1
              · exact heffects.2 j m h1

/-- When the session can be written, a run returns: nothing that happens in the loop
over the configurations makes it throw. -/
theorem executeQueriesOnAllDbs_returns (env : Env Row Conn) (dbConfig : DbConfig)
    (st : State Row Conn) (queries : List String) (shouldExport : Bool)
    (hfs : SessionWritable env) :
    ∃ r, (executeQueriesOnAllDbs env dbConfig st queries shouldExport).1 = .ok r := by
  have hfold : (processConfigs env dbConfig queries shouldExport
      (loopStart env st)).self.executionFolder = some (executionFolderPath env) :=
    foldl_processConfig_folder env dbConfig.type queries shouldExport
      (executionFolderPath env) (executionFolderPath_ne_empty env) dbConfig.configs
      (loopStart env st) (loopStart_folder env st)
  obtain ⟨hmkdir, hlogs, hcount⟩ := hfs
  have hmk : createExecutionFolder env st =
      (.ok (executionFolderPath env), (loopStart env st).self) := by
    simp [loopStart, createExecutionFolder, hmkdir]
  have hls : loopStart env st =
      { self := (loopStart env st).self, results := [], counts := [], logs := [] } := rfl
  unfold executeQueriesOnAllDbs
  rw [hmk]
  simp only
  rw [← hls]
  have hens := ensureExecutionFolder_of_folder env
    (processConfigs env dbConfig queries shouldExport (loopStart env st)).self
    (executionFolderPath env) hfold (executionFolderPath_ne_empty env)
  simp only [writeExecutionLogs, hens, hlogs, hfold, FileUtils.writeCountFile,
    executionFolderPath_ne_empty env, if_false, hcount]
  exact ⟨_, rfl⟩

end DatabaseUtils

namespace DatabaseUtils

variable {Row Conn : Type}

/-! ## Lemmas for the claims on whole runs -/

/-- Two runs of the configuration loop over the same configurations, from states with
the same session folder, the same `counts` and the same `results` except possibly under
`skipped`, end with the same `counts` and the same `results` except possibly under
`skipped`. -/
theorem foldl_processConfig_congr (env : Env Row Conn) (type : String) (queries : List String)
    (shouldExport : Bool) (folder : String) (hne : folder ≠ "") (skipped : String) :
    ∀ (configs : List ConnectionConfig) (run1 run2 : Run Row Conn),
      run1.self.executionFolder = some folder →
      run2.self.executionFolder = some folder →
      run1.counts = run2.counts →
      (∀ name, name ≠ skipped → run1.results.get name = run2.results.get name) →
      (configs.foldl (processConfig env type queries shouldExport) run1).counts =
        (configs.foldl (processConfig env type queries shouldExport) run2).counts ∧
      ∀ name, name ≠ skipped →
        (configs.foldl (processConfig env type queries shouldExport) run1).results.get name =
          (configs.foldl (processConfig env type queries shouldExport) run2).results.get name := by
  intro configs
  induction configs with
  | nil => intro run1 run2 _ _ hc hr; exact ⟨hc, hr⟩
  | cons config rest ih =>
    intro run1 run2 hf1 hf2 hc hr
    obtain ⟨hcounts, value, hres1, hres2⟩ := processConfig_congr env type queries shouldExport
      run1 run2 config folder hf1 hf2 hne hc
    rw [List.foldl_cons, List.foldl_cons]
    apply ih _ _
      (processConfig_frame env type queries shouldExport run1 config folder hf1 hne).1
      (processConfig_frame env type queries shouldExport run2 config folder hf2 hne).1 hcounts
    intro name hname
    rw [hres1, hres2]
    by_cases hcn : config.name = name
    · rw [hcn, Dict.get_set_self, Dict.get_set_self]
    · rw [Dict.get_set_ne _ _ _ _ hcn, Dict.get_set_ne _ _ _ _ hcn, hr name hname]

/-- Whatever the state, the body of the configuration loop writes to
`results[config.name]` either the failure marker or well shaped entries. -/
theorem processConfig_results (env : Env Row Conn) (type : String) (queries : List String)
    (shouldExport : Bool) (run : Run Row Conn) (config : ConnectionConfig) :
    ∃ value : DbResult Row,
      (processConfig env type queries shouldExport run config).results =
        run.results.set config.name value ∧
      ∀ dbResults, value = .queries dbResults → ∀ entry ∈ dbResults, entry.WellShaped := by
  unfold processConfig
  split
  · rename_i conn st1 heq
    refine ⟨.queries (runQueries env type shouldExport config queries 0
      { run with self := st1, logs := run.logs ++ ["Connected to database: " ++ config.name] }
      []).2, ?_, ?_⟩
    · simp only [runQueries_results]
    · intro dbResults hv
      cases hv
      exact runQueries_wellShaped env type shouldExport config queries 0 _ [] (by simp)
  · exact ⟨_, rfl, fun dbResults hv => by cases hv⟩

theorem foldl_processConfig_wellShaped (env : Env Row Conn) (type : String)
    (queries : List String) (shouldExport : Bool) :
    ∀ (configs : List ConnectionConfig) (run : Run Row Conn),
      (∀ name dbResults, run.results.get name = some (.queries dbResults) →
        ∀ entry ∈ dbResults, entry.WellShaped) →
      ∀ name dbResults,
        (configs.foldl (processConfig env type queries shouldExport) run).results.get name =
          some (.queries dbResults) →
        ∀ entry ∈ dbResults, entry.WellShaped := by
  intro configs
  induction configs with
  | nil => intro run h; exact h
  | cons config rest ih =>
    intro run h
    rw [List.foldl_cons]
    apply ih
    intro name dbResults hget
    obtain ⟨value, hres, hvalue⟩ :=
      processConfig_results env type queries shouldExport run config
    rw [hres] at hget
    by_cases hcn : config.name = name
    · rw [hcn, Dict.get_set_self] at hget
      cases hget
      exact hvalue dbResults rfl
    · rw [Dict.get_set_ne _ _ _ _ hcn] at hget
      exact h name dbResults hget

/-- The run on `before ++ config :: after`, seen from `config`, when `connect` succeeds
on it and no other configuration has its name. -/
theorem run_around_config (env : Env Row Conn) (type : String) (queries : List String)
    (shouldExport : Bool) (st : State Row Conn) (before after : List ConnectionConfig)
    (config : ConnectionConfig) (driver : Driver Row Conn) (conn : Conn)
    (hnames : ((before ++ config :: after).map (·.name)).Nodup)
    (hdriver : driverFor env type = some driver)
    (hconn : driver.createConnection config = .ok conn) :
    ∃ (run1 : Run Row Conn) (head tail : List (Effect Row)),
      InLoop env type driver config (executionFolderPath env) run1.self conn ∧
      (∀ key, countAt run1.counts key config.name = none) ∧
      (processConfigs env { type := type, configs := before ++ config :: after } queries
          shouldExport (loopStart env st)).results.get config.name =
        some (.queries (runQueries env type shouldExport config queries 0 run1 []).2) ∧
      (∀ key, countAt (processConfigs env { type := type, configs := before ++ config :: after }
          queries shouldExport (loopStart env st)).counts key config.name =
        countAt (runQueries env type shouldExport config queries 0 run1 []).1.counts key
          config.name) ∧
      run1.self.effects = st.effects ++ head ∧
      (processConfigs env { type := type, configs := before ++ config :: after } queries
          shouldExport (loopStart env st)).self.effects =
        (runQueries env type shouldExport config queries 0 run1 []).1.self.effects ++ tail ∧
      executedOn config.name head = [] ∧ (∀ j, Effect.exportToExcel j config.name ∉ head) ∧
      executedOn config.name tail = [] ∧ (∀ j, Effect.exportToExcel j config.name ∉ tail) := by
  have hnd := hnames
  rw [List.map_append, List.map_cons, List.nodup_append] at hnd
  obtain ⟨_, hnd2, hdisj⟩ := hnd
  have hbefore : ∀ c ∈ before, c.name ≠ config.name := by
    intro c hc heq
    exact hdisj (List.mem_map_of_mem _ hc) (by rw [heq]; exact List.mem_cons_self _ _)
  have hafter : ∀ c ∈ after, c.name ≠ config.name := by
    intro c hc heq
    have := (List.nodup_cons.1 hnd2).1
    exact this (by rw [← heq]; exact List.mem_map_of_mem _ hc)
  have hne := executionFolderPath_ne_empty env
  obtain ⟨hf1, _, hcnt1, trace1, heff1, hexec1, hmarks1⟩ :=
    foldl_processConfig_frame env type queries shouldExport (executionFolderPath env) hne
      config.name before (loopStart env st) (loopStart_folder env st) hbefore
  obtain ⟨run1, closing, hloop, hrc, heffr, hres, hcounts, heff, hfold, hexecc, hmarksc⟩ :=
    processConfig_of_ok env type queries shouldExport
      (before.foldl (processConfig env type queries shouldExport) (loopStart env st))
      config driver conn (executionFolderPath env) hdriver hconn hf1 hne
  obtain ⟨_, hres2, hcnt2, trace2, heff2, hexec2, hmarks2⟩ :=
    foldl_processConfig_frame env type queries shouldExport (executionFolderPath env) hne
      config.name after
      (processConfig env type queries shouldExport
        (before.foldl (processConfig env type queries shouldExport) (loopStart env st)) config)
      hfold hafter
  have hsplit : processConfigs env { type := type, configs := before ++ config :: after } queries
      shouldExport (loopStart env st) =
      after.foldl (processConfig env type queries shouldExport)
        (processConfig env type queries shouldExport
          (before.foldl (processConfig env type queries shouldExport) (loopStart env st))
          config) := by
    simp [processConfigs, List.foldl_append]
  refine ⟨run1, [.mkdir (executionFolderPath env)] ++ trace1 ++ [.createConnection config],
    closing ++ trace2, hloop, ?_, ?_, ?_, ?_, ?_, ?_, ?_, ?_, ?_⟩
  · intro key
    rw [hrc, hcnt1 key]
    rfl
  · rw [hsplit, hres2, hres, Dict.get_set_self]
  · intro key
    rw [hsplit, hcnt2 key, hcounts]
  · rw [heffr, heff1, loopStart_effects]
    simp
  · rw [hsplit, heff2, heff]
    simp
  · rw [executedOn_append, executedOn_append, hexec1]
    simp [executedOn]
  · intro j hj
    simp only [List.mem_append, List.mem_singleton] at hj
    rcases hj with (hj | hj) | hj
    · cases hj
    · exact hmarks1 j hj
    · cases hj
  · rw [executedOn_append, hexecc, hexec2]
    rfl
  · intro j hj
    rcases List.mem_append.1 hj with h | h
    · exact hmarksc j _ h
    · exact hmarks2 j h

end DatabaseUtils

namespace DatabaseUtils

variable {Row Conn : Type}

/-! ## The claims on the orchestrator -/

/-- C1. Partial-failure isolation: for configurations with pairwise distinct names
among which `connect` fails for `k`, and a session that can be written, the run returns;
`results[k.name]` is the failure marker with the message of the connection error and
count 0; and for every other configuration the value in `results` and the values in
`counts` are those of the run on the list without `k`. -/
theorem connect_failure_isolation (env : Env Row Conn) (type : String)
    (before after : List ConnectionConfig) (k : ConnectionConfig) (st : State Row Conn)
    (queries : List String) (shouldExport : Bool) (dbError : String)
    (hnames : ((before ++ k :: after).map (·.name)).Nodup)
    (hfail : ∀ s : State Row Conn, (connect env type s k).1 = .error dbError)
    (hfs : SessionWritable env) :
    ∃ r r0 : RunResult Row,
      (executeQueriesOnAllDbs env { type := type, configs := before ++ k :: after } st queries
        shouldExport).1 = .ok r ∧
      (executeQueriesOnAllDbs env { type := type, configs := before ++ after } st queries
        shouldExport).1 = .ok r0 ∧
      r.results.get k.name = some (.failed dbError 0) ∧
      ∀ config ∈ before ++ after,
        r.results.get config.name = r0.results.get config.name ∧
        ∀ key, countAt r.counts key config.name = countAt r0.counts key config.name := by
  obtain ⟨r, hr⟩ := executeQueriesOnAllDbs_returns env
    { type := type, configs := before ++ k :: after } st queries shouldExport hfs
  obtain ⟨r0, hr0⟩ := executeQueriesOnAllDbs_returns env
    { type := type, configs := before ++ after } st queries shouldExport hfs
  obtain ⟨hres, hcnt, _⟩ := executeQueriesOnAllDbs_of_ok env _ st queries shouldExport r hr
  obtain ⟨hres0, hcnt0, _⟩ := executeQueriesOnAllDbs_of_ok env _ st queries shouldExport r0 hr0
  have hne := executionFolderPath_ne_empty env
  have hnd := hnames
  rw [List.map_append, List.map_cons, List.nodup_append] at hnd
  obtain ⟨_, hnd2, hdisj⟩ := hnd
  have hbefore : ∀ c ∈ before, c.name ≠ k.name := by
    intro c hc heq
    exact hdisj (List.mem_map_of_mem _ hc) (by rw [heq]; exact List.mem_cons_self _ _)
  have hafter : ∀ c ∈ after, c.name ≠ k.name := by
    intro c hc heq
    exact (List.nodup_cons.1 hnd2).1 (by rw [← heq]; exact List.mem_map_of_mem _ hc)
  have hfolder := foldl_processConfig_folder env type queries shouldExport
    (executionFolderPath env) hne before (loopStart env st) (loopStart_folder env st)
  obtain ⟨_, hkres, hkcounts, _, hkfolder, _, _⟩ := processConfig_of_error env type queries
    shouldExport (before.foldl (processConfig env type queries shouldExport) (loopStart env st))
    k dbError (hfail _)
  have hkf := hkfolder.trans hfolder
  obtain ⟨hcounts, hresults⟩ := foldl_processConfig_congr env type queries shouldExport
    (executionFolderPath env) hne k.name after
    (processConfig env type queries shouldExport
      (before.foldl (processConfig env type queries shouldExport) (loopStart env st)) k)
    (before.foldl (processConfig env type queries shouldExport) (loopStart env st))
    hkf hfolder hkcounts
    (fun name hname => by rw [hkres, Dict.get_set_ne _ _ _ _ (Ne.symm hname)])
  obtain ⟨_, hmarker, _⟩ := foldl_processConfig_frame env type queries shouldExport
    (executionFolderPath env) hne k.name after
    (processConfig env type queries shouldExport
      (before.foldl (processConfig env type queries shouldExport) (loopStart env st)) k)
    hkf hafter
  have hsplit : processConfigs env { type := type, configs := before ++ k :: after } queries
      shouldExport (loopStart env st) =
      after.foldl (processConfig env type queries shouldExport)
        (processConfig env type queries shouldExport
          (before.foldl (processConfig env type queries shouldExport) (loopStart env st)) k) := by
    simp [processConfigs, List.foldl_append]
  have hsplit0 : processConfigs env { type := type, configs := before ++ after } queries
      shouldExport (loopStart env st) =
      after.foldl (processConfig env type queries shouldExport)
        (before.foldl (processConfig env type queries shouldExport) (loopStart env st)) := by
    simp [processConfigs, List.foldl_append]
  refine ⟨r, r0, hr, hr0, ?_, ?_⟩
  · rw [hres, hsplit, hmarker, hkres, Dict.get_set_self]
  · intro config hconfig
    have hck : config.name ≠ k.name := by
      rcases List.mem_append.1 hconfig with h | h
      · exact hbefore config h
      · exact hafter config h
    refine ⟨?_, fun key => ?_⟩
    · rw [hres, hres0, hsplit, hsplit0]
      exact hresults config.name hck
    · rw [hcnt, hcnt0, hsplit, hsplit0, hcounts]

/-- Witness of C1: three databases of which the second refuses the connection. -/
theorem connect_failure_isolation_witness :
    ((([Example.config "a" "3306"] ++
        Example.config "b" "1" :: [Example.config "c" "3306"]).map (·.name)).Nodup ∧
      (∀ s : State String Nat,
        (connect (Example.env false) "mysql" s (Example.config "b" "1")).1 =
          .error "ECONNREFUSED") ∧
      SessionWritable (Example.env false)) ∧
    ∃ r r0 : RunResult String,
      (executeQueriesOnAllDbs (Example.env false)
        { type := "mysql"
          configs := [Example.config "a" "3306"] ++
            Example.config "b" "1" :: [Example.config "c" "3306"] }
        State.init ["SELECT 1", "BAD"] false).1 = .ok r ∧
      (executeQueriesOnAllDbs (Example.env false)
        { type := "mysql"
          configs := [Example.config "a" "3306"] ++ [Example.config "c" "3306"] }
        State.init ["SELECT 1", "BAD"] false).1 = .ok r0 ∧
      r.results.get (Example.config "b" "1").name = some (.failed "ECONNREFUSED" 0) ∧
      ∀ config ∈ [Example.config "a" "3306"] ++ [Example.config "c" "3306"],
        r.results.get config.name = r0.results.get config.name ∧
        ∀ key, countAt r.counts key config.name = countAt r0.counts key config.name :=
  ⟨⟨by decide, fun _ => rfl, rfl, fun _ => rfl, fun _ => rfl⟩,
    connect_failure_isolation (Example.env false) "mysql" [Example.config "a" "3306"]
      [Example.config "c" "3306"] (Example.config "b" "1") State.init ["SELECT 1", "BAD"] false
      "ECONNREFUSED" (by decide) (fun _ => rfl) ⟨rfl, fun _ => rfl, fun _ => rfl⟩⟩

end DatabaseUtils

namespace DatabaseUtils

variable {Row Conn : Type}

/-- C2. Statement-failure isolation and order: for a configuration on which `connect`
succeeds (its name being that of no other configuration), `results[name]` is an array
with one entry per statement, the entry at position `i` carrying the label `query_{i+1}`
and the text of statement `i`; a statement that fails at position `i` leaves the failure
entry with its message at position `i`; and the statements executed on that database
are all the statements, in order. -/
theorem statement_failure_isolation (env : Env Row Conn) (type : String)
    (before after : List ConnectionConfig) (config : ConnectionConfig) (st : State Row Conn)
    (queries : List String) (shouldExport : Bool) (driver : Driver Row Conn) (conn : Conn)
    (r : RunResult Row)
    (hnames : ((before ++ config :: after).map (·.name)).Nodup)
    (hdriver : driverFor env type = some driver)
    (hconn : driver.createConnection config = .ok conn)
    (hrun : (executeQueriesOnAllDbs env { type := type, configs := before ++ config :: after }
      st queries shouldExport).1 = .ok r) :
    ∃ (dbResults : List (QueryResult Row)) (trace : List (Effect Row)),
      r.results.get config.name = some (.queries dbResults) ∧
      dbResults.length = queries.length ∧
      (∀ i (hi : i < queries.length), ∃ entry, dbResults[i]? = some entry ∧
        entry.queryNumber = queryKey i ∧ entry.query = queries[i]) ∧
      (∀ i (hi : i < queries.length) (e : String),
        (driver.execute (connBefore driver conn queries i) queries[i]).1 = .error e →
        dbResults[i]? = some (failureEntry i queries[i] e)) ∧
      (executeQueriesOnAllDbs env { type := type, configs := before ++ config :: after }
        st queries shouldExport).2.effects = st.effects ++ trace ∧
      executedOn config.name trace = queries := by
  obtain ⟨hres, _, _, written, heff, hexecw, _⟩ :=
    executeQueriesOnAllDbs_of_ok env _ st queries shouldExport r hrun
  obtain ⟨run1, head, tail, hloop, _, hget, _, hhead, htail, hexech, _, hexect, _⟩ :=
    run_around_config env type queries shouldExport st before after config driver conn hnames
      hdriver hconn
  obtain ⟨added, trace, hadd, htrace, _, hexecs, _, hall⟩ :=
    runQueries_inLoop shouldExport queries 0 run1 conn [] hloop
  obtain ⟨added1, hadd1, hlen, hlabels⟩ :=
    runQueries_entries env type shouldExport config queries 0 run1 []
  have hsame : added1 = added := by
    rw [hadd] at hadd1
    simpa using hadd1.symm
  subst hsame
  refine ⟨added1, head ++ trace ++ tail ++ written, ?_, hlen, ?_, ?_, ?_, ?_⟩
  · rw [hres, hget, hadd]; rfl
  · intro i hi
    obtain ⟨entry, he, hn, ht⟩ := hlabels i hi
    exact ⟨entry, he, by simpa using hn, ht⟩
  · intro i hi e he
    have := ((hall i hi).1 e he).1
    simpa using this
  · rw [heff, htail, htrace, hhead]
    simp
  · rw [executedOn_append, executedOn_append, executedOn_append, hexech, hexecs, hexect,
      hexecw, if_pos rfl]
    simp

/-- Witness of C2: two statements of which the first fails, on the second of two
databases. -/
theorem statement_failure_isolation_witness :
    ∃ (dbResults : List (QueryResult String)) (trace : List (Effect String)),
      (Dict.get ([("a", DbResult.queries [failureEntry 0 "BAD" "syntax error",
            successEntry 1 "SELECT 1" ["row 1", "row 2"] none]),
          ("b", DbResult.queries [failureEntry 0 "BAD" "syntax error",
            successEntry 1 "SELECT 1" ["row 1", "row 2"] none])] : Dict (DbResult String))
        (Example.config "b" "3306").name) = some (.queries dbResults) ∧
      dbResults.length = ["BAD", "SELECT 1"].length ∧
      (∀ i (hi : i < ["BAD", "SELECT 1"].length), ∃ entry, dbResults[i]? = some entry ∧
        entry.queryNumber = queryKey i ∧ entry.query = ["BAD", "SELECT 1"][i]) ∧
      (∀ i (hi : i < ["BAD", "SELECT 1"].length) (e : String),
        (Example.driver.execute (connBefore Example.driver 0 ["BAD", "SELECT 1"] i)
          ["BAD", "SELECT 1"][i]).1 = .error e →
        dbResults[i]? = some (failureEntry i ["BAD", "SELECT 1"][i] e)) ∧
      (executeQueriesOnAllDbs (Example.env false)
        { type := "mysql"
          configs := [Example.config "a" "3306"] ++ Example.config "b" "3306" :: [] }
        State.init ["BAD", "SELECT 1"] false).2.effects =
          (State.init : State String Nat).effects ++ trace ∧
      executedOn (Example.config "b" "3306").name trace = ["BAD", "SELECT 1"] :=
  statement_failure_isolation (Example.env false) "mysql" [Example.config "a" "3306"] []
    (Example.config "b" "3306") State.init ["BAD", "SELECT 1"] false Example.driver 0
    { results := [("a", .queries [failureEntry 0 "BAD" "syntax error",
          successEntry 1 "SELECT 1" ["row 1", "row 2"] none]),
        ("b", .queries [failureEntry 0 "BAD" "syntax error",
          successEntry 1 "SELECT 1" ["row 1", "row 2"] none])]
      counts := [("query_2", [("a", some 2), ("b", some 2)])]
      queryMapping := [("query_1", "BAD"), ("query_2", "SELECT 1")]
      executionFolder :=
        some "/app/utils/../queries-execution/execution on 2024-01-01 (10_00_00 AM)" }
    (by decide) rfl rfl rfl

/-- What holds of the entries on every run: every element of every array in `results`
carries either what the package returned, with the value of its `length` as count and no
error, or an error with count 0; and one that carries an error has count 0, no rows and
no export path. -/
theorem result_entries_shape (env : Env Row Conn) (dbConfig : DbConfig)
    (st : State Row Conn) (queries : List String) (shouldExport : Bool) (r : RunResult Row)
    (hrun : (executeQueriesOnAllDbs env dbConfig st queries shouldExport).1 = .ok r)
    (name : String) (dbResults : List (QueryResult Row))
    (hget : r.results.get name = some (.queries dbResults)) :
    ∀ entry ∈ dbResults,
      entry.WellShaped ∧
      ∀ e, entry.error = some e →
        entry.count = some 0 ∧ entry.rows = none ∧ entry.exportPath = none := by
  obtain ⟨hres, _⟩ := executeQueriesOnAllDbs_of_ok env dbConfig st queries shouldExport r hrun
  rw [hres] at hget
  have hshape := foldl_processConfig_wellShaped env dbConfig.type queries shouldExport
    dbConfig.configs (loopStart env st) (by intro n d h; simp [loopStart, Dict.get] at h)
    name dbResults hget
  intro entry hentry
  refine ⟨hshape entry hentry, ?_⟩
  intro e he
  rcases hshape entry hentry with ⟨output, length, _, _, _, hnone⟩ | ⟨e1, _, hc, hr, hp⟩
  · rw [he] at hnone; cases hnone
  · exact ⟨hc, hr, hp⟩

/-- C5, at a failing input: on a package that, like mysql2, answers a statement without
result set with a result header, the statement `DELETE FROM t` succeeds and its entry in
`results` carries the header as rows, no count (`rows.length` is `undefined`) and no
error, while `counts` holds `undefined` for it; that entry is neither a success entry
(rows with their number as count) nor a failure entry (an error with count 0). -/
theorem result_header_entry_has_no_count :
    (Example.driver.execute 0 "DELETE FROM t").1 = .ok .header ∧
    (executeQueriesOnAllDbs (Example.env false)
      { type := "mysql", configs := [Example.config "a" "3306"] } State.init
      ["DELETE FROM t"] false).1 =
      .ok { results := [("a", .queries [outputEntry 0 "DELETE FROM t" .header none none])]
            counts := [("query_1", [("a", none)])]
            queryMapping := [("query_1", "DELETE FROM t")]
            executionFolder :=
              some "/app/utils/../queries-execution/execution on 2024-01-01 (10_00_00 AM)" } ∧
    (outputEntry 0 "DELETE FROM t" .header none none : QueryResult String).rows =
      some .header ∧
    (outputEntry 0 "DELETE FROM t" .header none none : QueryResult String).count = none ∧
    (outputEntry 0 "DELETE FROM t" .header none none : QueryResult String).error = none ∧
    ¬ (outputEntry 0 "DELETE FROM t" .header none none : QueryResult String).RowsOrFailure := by
  refine ⟨rfl, rfl, rfl, rfl, rfl, ?_⟩
  rintro (⟨rows, hrows, _, _⟩ | ⟨e, he, _⟩)
  · simp [outputEntry] at hrows
  · simp [outputEntry] at he

end DatabaseUtils

namespace DatabaseUtils

variable {Row Conn : Type}

/-- C6, at a failing input: with export on, the statement `SELECT 1` returns two rows on
database `a` and writing the workbook fails with `EACCES`. The entry recorded in
`results` is the failure entry with that message, count 0 and no rows, while `counts`
keeps the 2 recorded before the export. -/
theorem export_failure_replaces_result :
    (Example.driver.execute 0 "SELECT 1").1 = .ok (.array ["row 1", "row 2"]) ∧
    (executeQueriesOnAllDbs (Example.env true)
      { type := "mysql", configs := [Example.config "a" "3306"] } State.init ["SELECT 1"]
      true).1 =
      .ok { results := [("a", .queries [failureEntry 0 "SELECT 1" "EACCES"])]
            counts := [("query_1", [("a", some 2)])]
            queryMapping := [("query_1", "SELECT 1")]
            executionFolder :=
              some "/app/utils/../queries-execution/execution on 2024-01-01 (10_00_00 AM)" } :=
  ⟨rfl, rfl⟩

/-- Counterexample to C7 as stated: with export on and a statement that returned two
rows, `exportToExcel` was entered but, the workbook write failing, the entry has no
export path; so 'invoked and path attached' does not hold although export was requested
and there were rows. -/
theorem export_gating_counterexample :
    (Example.driver.execute 0 "SELECT 1").1 = .ok (.array ["row 1", "row 2"]) ∧
    ((executeQueriesOnAllDbs (Example.env true)
      { type := "mysql", configs := [Example.config "a" "3306"] } State.init ["SELECT 1"]
      true).1.toOption.map (fun r => r.results.get "a")) =
      some (some (.queries [failureEntry 0 "SELECT 1" "EACCES"])) ∧
    ¬((Effect.exportToExcel 0 "a" ∈
          (executeQueriesOnAllDbs (Example.env true)
            { type := "mysql", configs := [Example.config "a" "3306"] } State.init
            ["SELECT 1"] true).2.effects ∧
        (failureEntry 0 "SELECT 1" "EACCES" : QueryResult String).exportPath.isSome = true) ↔
      (true = true ∧ 0 < ["row 1", "row 2"].length)) := by
  refine ⟨rfl, rfl, ?_⟩
  intro h
  have := (h.2 ⟨rfl, by decide⟩).2
  simp [failureEntry] at this

/-- C7, amended. For a statement that executed successfully and returned `output` on a
database on which `connect` succeeded: `exportToExcel` is entered for it if and only if
export was requested and the statement returned more than 0 rows, and its entry carries
the export path `p` if and only if, moreover, `exportToExcel` returned `p`. -/
theorem export_gating (env : Env Row Conn) (type : String)
    (before after : List ConnectionConfig) (config : ConnectionConfig) (st : State Row Conn)
    (queries : List String) (shouldExport : Bool) (driver : Driver Row Conn) (conn : Conn)
    (r : RunResult Row)
    (hnames : ((before ++ config :: after).map (·.name)).Nodup)
    (hdriver : driverFor env type = some driver)
    (hconn : driver.createConnection config = .ok conn)
    (hrun : (executeQueriesOnAllDbs env { type := type, configs := before ++ config :: after }
      st queries shouldExport).1 = .ok r)
    (i : Nat) (hi : i < queries.length) (output : QueryOutput Row)
    (houtput : (driver.execute (connBefore driver conn queries i) queries[i]).1 =
      .ok output) :
    ∃ (dbResults : List (QueryResult Row)) (entry : QueryResult Row)
      (trace : List (Effect Row)),
      r.results.get config.name = some (.queries dbResults) ∧
      dbResults[i]? = some entry ∧
      (executeQueriesOnAllDbs env { type := type, configs := before ++ config :: after }
        st queries shouldExport).2.effects = st.effects ++ trace ∧
      (Effect.exportToExcel i config.name ∈ trace ↔
        (shouldExport = true ∧ 0 < output.rowCount)) ∧
      ∀ p, entry.exportPath = some p ↔
        (shouldExport = true ∧ 0 < output.rowCount ∧
          exportOutcome env (executionFolderPath env) output i config.name = .ok p) := by
  obtain ⟨hres, _, _, written, heff, _, hmarkw⟩ :=
    executeQueriesOnAllDbs_of_ok env _ st queries shouldExport r hrun
  obtain ⟨run1, head, tail, hloop, _, hget, _, hhead, htail, _, hmarkh, _, hmarkt⟩ :=
    run_around_config env type queries shouldExport st before after config driver conn hnames
      hdriver hconn
  obtain ⟨added, trace, hadd, htrace, _, _, _, hall⟩ :=
    runQueries_inLoop shouldExport queries 0 run1 conn [] hloop
  obtain ⟨hmark, hthrow, hread⟩ := (hall i hi).2 output houtput
  simp only [Nat.zero_add] at hmark hthrow hread
  have hget1 : r.results.get config.name = some (.queries added) := by
    rw [hres, hget, hadd]; rfl
  have heff1 : (executeQueriesOnAllDbs env { type := type, configs := before ++ config :: after }
      st queries shouldExport).2.effects = st.effects ++ (head ++ trace ++ tail ++ written) := by
    rw [heff, htail, htrace, hhead]; simp
  have hmem : Effect.exportToExcel i config.name ∈ head ++ trace ++ tail ++ written ↔
      (shouldExport = true ∧ 0 < output.rowCount) := by
    rw [← hmark]
    simp only [List.mem_append]
    constructor
    · rintro (((h | h) | h) | h)
      · exact absurd h (hmarkh i)
      · exact h
      · exact absurd h (hmarkt i)
      · exact absurd h (hmarkw i _)
    · intro h; exact Or.inl (Or.inl (Or.inr h))
  cases hlen : output.length with
  | error typeError =>
    obtain ⟨h4, _⟩ := hthrow typeError hlen
    have hzero := rowCount_of_length_error output typeError hlen
    refine ⟨added, _, _, hget1, h4, heff1, hmem, ?_⟩
    intro p
    constructor
    · intro hp; simp [failureEntry] at hp
    · intro hp
      have := hp.2.1
      omega
  | ok length =>
    obtain ⟨_, hentry⟩ := hread length hlen
    rcases hentry with ⟨h1, h2⟩ | ⟨h1, h2, p0, h3, h4⟩ | ⟨h1, h2, e, h3, h4⟩
    · refine ⟨added, _, _, hget1, h2, heff1, hmem, ?_⟩
      intro p
      constructor
      · intro hp; simp [outputEntry] at hp
      · intro hp; exact absurd ⟨hp.1, hp.2.1⟩ h1
    · refine ⟨added, _, _, hget1, h4, heff1, hmem, ?_⟩
      intro p
      constructor
      · intro hp
        simp only [outputEntry, Option.some.injEq] at hp
        subst hp
        exact ⟨h1, h2, h3⟩
      · intro hp
        rw [h3] at hp
        simp only [outputEntry, Option.some.injEq]
        exact Except.ok.inj hp.2.2
    · refine ⟨added, _, _, hget1, h4, heff1, hmem, ?_⟩
      intro p
      constructor
      · intro hp; simp [failureEntry] at hp
      · intro hp
        rw [h3] at hp
        exact absurd hp.2.2 (by simp)

/-- Witness of C7 amended: export on, a statement with two rows and one with none. -/
theorem export_gating_witness :
    ∃ (dbResults : List (QueryResult String)) (entry : QueryResult String)
      (trace : List (Effect String)),
      (Dict.get ([("a", DbResult.queries [successEntry 0 "SELECT 1" ["row 1", "row 2"]
            (some ("/app/utils/../queries-execution/execution on 2024-01-01 (10_00_00 AM)" ++
              "/exports/a_query_1.xlsx")),
          successEntry 1 "EMPTY" [] none])] : Dict (DbResult String))
        (Example.config "a" "3306").name) = some (.queries dbResults) ∧
      dbResults[1]? = some entry ∧
      (executeQueriesOnAllDbs (Example.env false)
        { type := "mysql", configs := [] ++ Example.config "a" "3306" :: [] }
        State.init ["SELECT 1", "EMPTY"] true).2.effects =
          (State.init : State String Nat).effects ++ trace ∧
      (Effect.exportToExcel 1 (Example.config "a" "3306").name ∈ trace ↔
        (true = true ∧ 0 < (QueryOutput.array ([] : List String)).rowCount)) ∧
      ∀ p, entry.exportPath = some p ↔
        (true = true ∧ 0 < (QueryOutput.array ([] : List String)).rowCount ∧
          exportOutcome (Example.env false) (executionFolderPath (Example.env false))
            (.array []) 1 (Example.config "a" "3306").name = .ok p) :=
  export_gating (Example.env false) "mysql" [] [] (Example.config "a" "3306") State.init
    ["SELECT 1", "EMPTY"] true Example.driver 0
    { results := [("a", .queries [successEntry 0 "SELECT 1" ["row 1", "row 2"]
          (some ("/app/utils/../queries-execution/execution on 2024-01-01 (10_00_00 AM)" ++
            "/exports/a_query_1.xlsx")),
        successEntry 1 "EMPTY" [] none])]
      counts := [("query_1", [("a", some 2)]), ("query_2", [("a", some 0)])]
      queryMapping := [("query_1", "SELECT 1"), ("query_2", "EMPTY")]
      executionFolder :=
        some "/app/utils/../queries-execution/execution on 2024-01-01 (10_00_00 AM)" }
    (by decide) rfl rfl rfl 1 (by decide) (.array []) rfl

end DatabaseUtils

namespace DatabaseUtils

variable {Row Conn : Type}

/-- Counterexample to C8 as stated: the statement `BAD` fails on the reachable database
`a`, and the returned `counts` has no value at all under `query_1` for `a`, rather than
0. -/
theorem failed_statement_count_counterexample :
    (Example.driver.createConnection (Example.config "a" "3306")) = .ok 0 ∧
    (Example.driver.execute 0 "BAD").1 = .error "syntax error" ∧
    ((executeQueriesOnAllDbs (Example.env false)
      { type := "mysql", configs := [Example.config "a" "3306"] } State.init ["BAD"]
      false).1.toOption.map (fun r => countAt r.counts "query_1" "a")) = some none ∧
    ((executeQueriesOnAllDbs (Example.env false)
      { type := "mysql", configs := [Example.config "a" "3306"] } State.init ["BAD"]
      false).1.toOption.map (fun r => countAt r.counts "query_1" "a")) ≠
        some (some (some 0)) := by
  refine ⟨rfl, rfl, rfl, ?_⟩
  intro h
  have h1 : (some (none : Option (Option Nat))) = some (some (some 0)) := h
  simp at h1

/-- C8, amended. On a database on which `connect` succeeded: a statement whose
execution fails leaves no value in `counts` under its label for that database (its
failure entry in `results` carries count 0); and, when the name of the database is not
`__proto__`, for every entry of `results[name]` whose rows are an array,
`counts[entry.queryNumber][name]` is defined and equals the count of the entry, the
number of those rows. -/
theorem counts_of_statements (env : Env Row Conn) (type : String)
    (before after : List ConnectionConfig) (config : ConnectionConfig) (st : State Row Conn)
    (queries : List String) (shouldExport : Bool) (driver : Driver Row Conn) (conn : Conn)
    (r : RunResult Row)
    (hnames : ((before ++ config :: after).map (·.name)).Nodup)
    (hdriver : driverFor env type = some driver)
    (hconn : driver.createConnection config = .ok conn)
    (hrun : (executeQueriesOnAllDbs env { type := type, configs := before ++ config :: after }
      st queries shouldExport).1 = .ok r) :
    ∃ dbResults : List (QueryResult Row),
      r.results.get config.name = some (.queries dbResults) ∧
      (∀ i (hi : i < queries.length) (e : String),
        (driver.execute (connBefore driver conn queries i) queries[i]).1 = .error e →
        dbResults[i]? = some (failureEntry i queries[i] e) ∧
        countAt r.counts (queryKey i) config.name = none) ∧
      (config.name ≠ "__proto__" →
        ∀ entry ∈ dbResults, ∀ rows : List Row, entry.rows = some (.array rows) →
          entry.error = none ∧
          entry.count = some rows.length ∧
          countAt r.counts entry.queryNumber config.name = some (some rows.length)) := by
  obtain ⟨hres, hcnt, _⟩ := executeQueriesOnAllDbs_of_ok env _ st queries shouldExport r hrun
  obtain ⟨run1, head, tail, hloop, hzero, hget, hcounts, _⟩ :=
    run_around_config env type queries shouldExport st before after config driver conn hnames
      hdriver hconn
  obtain ⟨added, trace, hadd, _, _, _, _, hall⟩ :=
    runQueries_inLoop shouldExport queries 0 run1 conn [] hloop
  obtain ⟨added1, hadd1, hlen, _⟩ :=
    runQueries_entries env type shouldExport config queries 0 run1 []
  have hsame : added1 = added := by
    rw [hadd] at hadd1
    simpa using hadd1.symm
  subst hsame
  have hget1 : r.results.get config.name = some (.queries added1) := by
    rw [hres, hget, hadd]; rfl
  refine ⟨added1, hget1, ?_, ?_⟩
  · intro i hi e he
    obtain ⟨hentry, hc⟩ := (hall i hi).1 e he
    simp only [Nat.zero_add] at hentry hc
    exact ⟨hentry, by rw [hcnt, hcounts, hc, hzero]⟩
  · intro hname entry hentry rows hrows
    obtain ⟨i, hi, hget2⟩ := List.mem_iff_getElem.1 hentry
    have hiq : i < queries.length := by rw [← hlen]; exact hi
    have hopt : added1[i]? = some entry := by
      rw [List.getElem?_eq_getElem hi, hget2]
    cases hout : (driver.execute (connBefore driver conn queries i) queries[i]).1 with
    | error e =>
      obtain ⟨hfe, _⟩ := (hall i hiq).1 e hout
      rw [hopt] at hfe
      cases hfe
      simp [failureEntry] at hrows
    | ok output =>
      obtain ⟨_, hthrow, hread⟩ := (hall i hiq).2 output hout
      simp only [Nat.zero_add] at hthrow hread
      cases hlength : output.length with
      | error typeError =>
        obtain ⟨hfe, _⟩ := hthrow typeError hlength
        rw [hopt] at hfe
        cases hfe
        simp [failureEntry] at hrows
      | ok length =>
        obtain ⟨hc, hshape⟩ := hread length hlength
        have hc1 := hc hname
        have hfrom : ∀ path, entry = outputEntry i queries[i] output length path →
            entry.error = none ∧ entry.count = some rows.length ∧
            countAt r.counts entry.queryNumber config.name = some (some rows.length) := by
          intro path hEq
          subst hEq
          simp only [outputEntry, Option.some.injEq] at hrows
          subst hrows
          simp only [QueryOutput.length, Except.ok.injEq] at hlength
          subst hlength
          refine ⟨rfl, rfl, ?_⟩
          simp only [outputEntry]
          rw [hcnt, hcounts, hc1]
        rcases hshape with ⟨_, h2⟩ | ⟨_, _, p, _, h2⟩ | ⟨_, _, e, _, h2⟩
        · rw [hopt] at h2
          exact hfrom none (Option.some.inj h2)
        · rw [hopt] at h2
          exact hfrom (some p) (Option.some.inj h2)
        · rw [hopt] at h2
          cases h2
          simp [failureEntry] at hrows

/-- Witness of C8 amended: a failing statement followed by one that returns two rows. -/
theorem counts_of_statements_witness :
    ∃ dbResults : List (QueryResult String),
      (Dict.get ([("a", DbResult.queries [failureEntry 0 "BAD" "syntax error",
            successEntry 1 "SELECT 1" ["row 1", "row 2"] none])] : Dict (DbResult String))
        (Example.config "a" "3306").name) = some (.queries dbResults) ∧
      (∀ i (hi : i < ["BAD", "SELECT 1"].length) (e : String),
        (Example.driver.execute (connBefore Example.driver 0 ["BAD", "SELECT 1"] i)
          ["BAD", "SELECT 1"][i]).1 = .error e →
        dbResults[i]? = some (failureEntry i ["BAD", "SELECT 1"][i] e) ∧
        countAt [("query_2", [("a", some 2)])] (queryKey i) (Example.config "a" "3306").name =
          none) ∧
      ((Example.config "a" "3306").name ≠ "__proto__" →
        ∀ entry ∈ dbResults, ∀ rows : List String, entry.rows = some (.array rows) →
          entry.error = none ∧
          entry.count = some rows.length ∧
          countAt [("query_2", [("a", some 2)])] entry.queryNumber
            (Example.config "a" "3306").name = some (some rows.length)) :=
  counts_of_statements (Example.env false) "mysql" [] [] (Example.config "a" "3306")
    State.init ["BAD", "SELECT 1"] false Example.driver 0
    { results := [("a", .queries [failureEntry 0 "BAD" "syntax error",
          successEntry 1 "SELECT 1" ["row 1", "row 2"] none])]
      counts := [("query_2", [("a", some 2)])]
      queryMapping := [("query_1", "BAD"), ("query_2", "SELECT 1")]
      executionFolder :=
        some "/app/utils/../queries-execution/execution on 2024-01-01 (10_00_00 AM)" }
    (by decide) rfl rfl rfl

/-- C9, at a failing input: the run returns the query mapping `query_1 -> SELECT 1`, and
the last thing it does is to write `COUNT.txt` with the counts and without any query
mapping. -/
theorem count_file_lacks_query_mapping :
    ((executeQueriesOnAllDbs (Example.env false)
      { type := "mysql", configs := [Example.config "a" "3306"] } State.init ["SELECT 1"]
      false).1.toOption.map (fun r => r.queryMapping)) = some [("query_1", "SELECT 1")] ∧
    (executeQueriesOnAllDbs (Example.env false)
      { type := "mysql", configs := [Example.config "a" "3306"] } State.init ["SELECT 1"]
      false).2.effects.getLast? =
      some (.writeFile
        ("/app/utils/../queries-execution/execution on 2024-01-01 (10_00_00 AM)" ++
          "/COUNT.txt")
        (.countDocument { counts := [("query_1", [("a", some 2)])], queryMapping := none })) :=
  ⟨rfl, rfl⟩

end DatabaseUtils

namespace FileUtils

/-! ## The later claims on the splitter -/

/-- The role of a candidate tells what `splitStep` does to `resultQueries` and to
`inComplexStatement`. -/
theorem splitStep_role (st : SplitState) (query : List Char) :
    (splitStep st query).inComplexStatement = (roleOf st.inComplexStatement query).2 ∧
    (splitStep st query).resultQueries.length =
      st.resultQueries.length +
        (if (roleOf st.inComplexStatement query).1 = .plain ∨
            (roleOf st.inComplexStatement query).1 = .closing then 1 else 0) := by
  unfold splitStep roleOf
  by_cases hmode : (if createOpener.test query then true else st.inComplexStatement) = true
  · simp only [hmode, if_true]
    by_cases hd : endDollars.test query = true
    · simp [hd]
    · by_cases he : endWord.test query = true ∧ trim query = ['E', 'N', 'D']
      · simp [hd, he]
      · simp [hd, he]
  · simp only [hmode, if_false]
    by_cases hq : query = []
    · simp [hq]
    · simp [hq]

theorem foldl_splitStep_length :
    ∀ (queries : List (List Char)) (st : SplitState),
      (queries.foldl splitStep st).resultQueries.length =
        st.resultQueries.length +
          ((roles st.inComplexStatement queries).count .plain +
            (roles st.inComplexStatement queries).count .closing) := by
  intro queries
  induction queries with
  | nil => intro st; simp [roles]
  | cons query rest ih =>
    intro st
    obtain ⟨hmode, hlen⟩ := splitStep_role st query
    rw [List.foldl_cons, ih, hmode, hlen, roles]
    cases hrole : (roleOf st.inComplexStatement query).1 <;>
      simp [List.count_cons] <;> omega

/-- Counterexample to C11 as stated: the text `SELECT 1` is not empty, has no `;` at all
and no compound block, and one statement is returned; the text `SELECT 1;;` has two `;`
and no compound block, and one statement is returned. -/
theorem statement_count_counterexample :
    ("SELECT 1".toList.count ';' = 0 ∧
      (∀ q ∈ candidates (normalize "SELECT 1".toList), createOpener.test q = false) ∧
      readSqlFile (.ok "SELECT 1") = .ok ["SELECT 1;"] ∧
      ["SELECT 1;"].length ≠ 0 + 0) ∧
    ("SELECT 1;;".toList.count ';' = 2 ∧
      (∀ q ∈ candidates (normalize "SELECT 1;;".toList), createOpener.test q = false) ∧
      readSqlFile (.ok "SELECT 1;;") = .ok ["SELECT 1;"] ∧
      ["SELECT 1;"].length ≠ 2 + 0) :=
  ⟨⟨by decide, by decide, rfl, by decide⟩, by decide, by decide, rfl, by decide⟩

/-- C11, amended. For every text, the number of statements returned by `readSqlFile` is
N + M, where N is the number of candidates (non-empty trimmed pieces of the normalised
text between `;`) that the loop meets outside compound mode and M is the number of
candidates that close a compound block. -/
theorem readSqlFile_statement_count (raw : String) :
    ∃ statements : List String,
      readSqlFile (.ok raw) = .ok statements ∧
      statements.length =
        (roles false (candidates (normalize raw.toList))).count .plain +
          (roles false (candidates (normalize raw.toList))).count .closing := by
  refine ⟨(splitSqlText raw.toList).map String.mk, rfl, ?_⟩
  rw [List.length_map, splitSqlText_eq_mergeCompound, mergeCompound, foldl_splitStep_length]
  simp

end FileUtils

namespace FileUtils

/-- C13, at a failing input: a file with Windows line ends. Cutting every line at its
first `--` gives a text from which `readSqlFile` returns `SELECT 1;` and `SELECT 2;`;
on the file itself, the `\r` after the comment keeps line 55 from matching, the comment
stays and swallows the second statement. -/
theorem line_comment_survives_carriage_return :
    withoutLineComments "SELECT 1; -- c\r\nSELECT 2;".toList = "SELECT 1; \nSELECT 2;".toList ∧
    readSqlFile (.ok "SELECT 1; \nSELECT 2;") = .ok ["SELECT 1;", "SELECT 2;"] ∧
    stripLineComment "SELECT 1; -- c\r".toList = "SELECT 1; -- c\r".toList ∧
    readSqlFile (.ok "SELECT 1; -- c\r\nSELECT 2;") = .ok ["SELECT 1;", "-- c SELECT 2;"] :=
  ⟨by decide, rfl, by decide, rfl⟩

/-- C14, at failing inputs: a procedure with an empty body, whose only candidate both
opens and closes the block, is returned as `END;` alone; and the text that precedes
`END$$` in the closing candidate is dropped. -/
theorem compound_block_content_lost :
    candidates (normalize "CREATE PROCEDURE p() BEGIN END$$".toList) =
      ["CREATE PROCEDURE p() BEGIN END$$".toList] ∧
    readSqlFile (.ok "CREATE PROCEDURE p() BEGIN END$$") = .ok ["END;"] ∧
    candidates (normalize "CREATE PROCEDURE p() BEGIN SELECT 1; SELECT 2 END$$".toList) =
      ["CREATE PROCEDURE p() BEGIN SELECT 1".toList, "SELECT 2 END$$".toList] ∧
    readSqlFile (.ok "CREATE PROCEDURE p() BEGIN SELECT 1; SELECT 2 END$$") =
      .ok ["CREATE PROCEDURE p() BEGIN SELECT 1; END;"] :=
  ⟨by decide, rfl, by decide, rfl⟩

/-- C15. When a candidate opens a compound block and neither it nor any later candidate
closes it (none is exactly `END`, none matches `END $$`), `readSqlFile` returns, without
error, exactly what the loop produces from the candidates before the opener. -/
theorem readSqlFile_unclosed_compound (raw : String) (before after : List (List Char))
    (opener : List Char)
    (hcands : candidates (normalize raw.toList) = before ++ opener :: after)
    (hopen : createOpener.test opener = true)
    (hrest : ∀ q ∈ opener :: after, endDollars.test q = false ∧ q ≠ "END".toList) :
    readSqlFile (.ok raw) = .ok ((mergeCompound before).map String.mk) := by
  have hrest1 : ∀ q ∈ opener :: after, endDollars.test q = false ∧ trim q ≠ "END".toList := by
    intro q hq
    have hmem : q ∈ candidates (normalize raw.toList) := by
      rw [hcands]; exact List.mem_append_right _ hq
    rw [trim_candidate _ q hmem]
    exact hrest q hq
  have ho := hrest1 opener (List.mem_cons_self _ _)
  have ho2 : trim opener ≠ ['E', 'N', 'D'] := ho.2
  have hstep : ∀ st : SplitState, splitStep st opener =
      { resultQueries := st.resultQueries
        complexStatements := st.complexStatements ++ [opener]
        inComplexStatement := true } := by
    intro st
    simp [splitStep, hopen, ho.1, ho2]
  simp only [readSqlFile, splitSqlText_eq_mergeCompound, mergeCompound, hcands,
    List.foldl_append, List.foldl_cons]
  rw [hstep, foldl_splitStep_open after _ rfl
    (fun q hq => hrest1 q (List.mem_cons_of_mem _ hq))]

/-- Witness of C15: a statement, then a trigger that is never closed. -/
theorem readSqlFile_unclosed_compound_witness :
    readSqlFile (.ok "SELECT 1; CREATE TRIGGER t BEGIN SELECT 2; SELECT 3;") =
      .ok ["SELECT 1;"] :=
  readSqlFile_unclosed_compound "SELECT 1; CREATE TRIGGER t BEGIN SELECT 2; SELECT 3;"
    ["SELECT 1".toList] ["SELECT 3".toList] "CREATE TRIGGER t BEGIN SELECT 2".toList
    (by decide) (by decide) (by decide)

end FileUtils

namespace DatabaseUtils

variable {Row Conn : Type}

/-! ## Connections during a run -/

theorem connectionCalls_append (a b : List (Effect Row)) :
    connectionCalls (a ++ b) = connectionCalls a ++ connectionCalls b := by
  simp [connectionCalls, List.filter_append]

theorem executeQuery_connectionCalls (env : Env Row Conn) (type : String)
    (st : State Row Conn) (query : String) :
    connectionCalls (executeQuery env type st query).2.effects = connectionCalls st.effects := by
  unfold executeQuery
  cases driverFor env type with
  | none => rfl
  | some driver =>
    cases hc : st.currentConnection with
    | none => simp [hc]
    | some connection => simp [hc, connectionCalls_append, connectionCalls]

theorem createExecutionFolder_connectionCalls (env : Env Row Conn) (st : State Row Conn) :
    connectionCalls (createExecutionFolder env st).2.effects = connectionCalls st.effects := by
  cases h : env.mkdir (executionFolderPath env) <;>
    simp [createExecutionFolder, h, connectionCalls_append, connectionCalls]

theorem ensureExecutionFolder_connectionCalls (env : Env Row Conn) (st : State Row Conn) :
    connectionCalls (ensureExecutionFolder env st).2.effects = connectionCalls st.effects := by
  unfold ensureExecutionFolder
  cases st.executionFolder with
  | none => exact createExecutionFolder_connectionCalls env st
  | some folder =>
    by_cases hf : folder = ""
    · simp only [hf, if_true]
      exact createExecutionFolder_connectionCalls env st
    · simp [hf]

theorem exportToExcel_connectionCalls (env : Env Row Conn) (st : State Row Conn)
    (data : QueryOutput Row) (queryIndex : Nat) (dbName : String) :
    connectionCalls (exportToExcel env st data queryIndex dbName).2.effects =
      connectionCalls st.effects := by
  have hens := ensureExecutionFolder_connectionCalls env
    { st with effects := st.effects ++ [.exportToExcel queryIndex dbName] }
  have hst0 : connectionCalls (st.effects ++ [Effect.exportToExcel queryIndex dbName]) =
      connectionCalls st.effects := by
    simp [connectionCalls_append, connectionCalls]
  simp only [hst0] at hens
  unfold exportToExcel
  simp only
  cases hE : ensureExecutionFolder env
      { st with effects := st.effects ++ [.exportToExcel queryIndex dbName] } with
  | mk out st1 =>
    rw [hE] at hens
    simp only at hens
    cases out with
    | error e => simpa using hens
    | ok folder =>
      simp only
      have hmk : connectionCalls (st1.effects ++ [Effect.mkdir (pathJoin folder "exports")]) =
          connectionCalls st.effects := by
        rw [connectionCalls_append, hens]; simp [connectionCalls]
      cases h1 : env.mkdir (pathJoin folder "exports") with
      | error e => simpa using hmk
      | ok u =>
        simp only
        have hwr : connectionCalls (st1.effects ++ [Effect.mkdir (pathJoin folder "exports")] ++
            [Effect.writeFile (pathJoin (pathJoin folder "exports")
              (dbName ++ "_query_" ++ toString (queryIndex + 1) ++ ".xlsx"))
              (.workbook data)]) = connectionCalls st.effects := by
          rw [connectionCalls_append, hmk]; simp [connectionCalls]
        cases h2 : env.writeFile
            (pathJoin (pathJoin folder "exports")
              (dbName ++ "_query_" ++ toString (queryIndex + 1) ++ ".xlsx"))
            (.workbook data) <;>
          simpa using hwr

theorem runQuery_connectionCalls (env : Env Row Conn) (type : String) (shouldExport : Bool)
    (config : ConnectionConfig) (queryIndex : Nat) (query : String) (run : Run Row Conn)
    (dbResults : List (QueryResult Row)) :
    connectionCalls
        (runQuery env type shouldExport config queryIndex query run dbResults).1.self.effects =
      connectionCalls run.self.effects := by
  have hexec := executeQuery_connectionCalls env type run.self query
  unfold runQuery
  cases hE : executeQuery env type run.self query with
  | mk out st1 =>
    rw [hE] at hexec
    simp only at hexec
    cases out with
    | error e => simpa using hexec
    | ok rows =>
      simp only
      cases hlen : rows.length with
      | error typeError => simpa using hexec
      | ok length =>
        simp only
        by_cases hc : (shouldExport && isPositive length) = true
        · rw [if_pos hc]
          have hexp := exportToExcel_connectionCalls env st1 rows queryIndex config.name
          cases hX : exportToExcel env st1 rows queryIndex config.name with
          | mk out2 st2 =>
            rw [hX] at hexp
            simp only at hexp
            cases out2 <;> simp only <;> rw [hexp, hexec]
        · rw [if_neg hc]
          simpa using hexec

theorem runQueries_connectionCalls (env : Env Row Conn) (type : String) (shouldExport : Bool)
    (config : ConnectionConfig) :
    ∀ (queries : List String) (queryIndex : Nat) (run : Run Row Conn)
      (dbResults : List (QueryResult Row)),
      connectionCalls
          (runQueries env type shouldExport config queries queryIndex run dbResults).1.self.effects =
        connectionCalls run.self.effects := by
  intro queries
  induction queries with
  | nil => intro _ _ _; rfl
  | cons query rest ih =>
    intro queryIndex run dbResults
    rw [runQueries, ih, runQuery_connectionCalls]

theorem disconnect_inLoop {env : Env Row Conn} {type : String} {driver : Driver Row Conn}
    {config : ConnectionConfig} {folder : String} {st : State Row Conn} {conn : Conn}
    (h : InLoop env type driver config folder st conn) :
    disconnect env type st =
      { st with
        currentConnection := none
        currentConfig := none
        effects := st.effects ++ [.closeConnection (some config.name)] } := by
  cases hcl : driver.close conn <;>
    simp [disconnect, h.connection_eq, h.driver_eq, h.config_eq, hcl]

/-- The body of the configuration loop, entered with no connection held: it leaves with
no connection held, and the connection calls it made are an attempt, followed by the
closing of that same configuration exactly when the attempt succeeded. -/
theorem processConfig_connection (env : Env Row Conn) (type : String) (queries : List String)
    (shouldExport : Bool) (run : Run Row Conn) (config : ConnectionConfig) (folder : String)
    (hfolder : run.self.executionFolder = some folder) (hne : folder ≠ "")
    (hconn : run.self.currentConnection = none) (hcfg : run.self.currentConfig = none) :
    (processConfig env type queries shouldExport run config).self.currentConnection = none ∧
    (processConfig env type queries shouldExport run config).self.currentConfig = none ∧
    connectionCalls (processConfig env type queries shouldExport run config).self.effects =
      connectionCalls run.self.effects ++ connectionCallsFor env type config := by
  cases hd : driverFor env type with
  | none =>
    simp [processConfig, connect, hd, disconnect, hconn, hcfg, connectionCallsFor]
  | some driver =>
    cases hc : driver.createConnection config with
    | error e =>
      simp [processConfig, connect, hd, hc, disconnect, hconn, hcfg, connectionCallsFor,
        connectionCalls_append, connectionCalls]
    | ok conn =>
      have hloop : InLoop env type driver config folder
          { run.self with
            effects := run.self.effects ++ [.createConnection config]
            currentConnection := some conn
            currentConfig := some config } conn :=
        ⟨hd, rfl, rfl, hfolder, hne⟩
      obtain ⟨added, trace, _, _, hafter, _, _, _⟩ :=
        @runQueries_inLoop Row Conn env type driver config folder shouldExport queries 0
          { run with
            self := { run.self with
              effects := run.self.effects ++ [.createConnection config]
              currentConnection := some conn
              currentConfig := some config }
            logs := run.logs ++ ["Connected to database: " ++ config.name] } conn [] hloop
      have hcalls := runQueries_connectionCalls env type shouldExport config queries 0
        { run with
          self := { run.self with
            effects := run.self.effects ++ [.createConnection config]
            currentConnection := some conn
            currentConfig := some config }
          logs := run.logs ++ ["Connected to database: " ++ config.name] } []
      have hstart : connectionCalls (run.self.effects ++ [Effect.createConnection config]) =
          connectionCalls run.self.effects ++ [Effect.createConnection config] := by
        rw [connectionCalls_append]; simp [connectionCalls]
      simp only [hstart] at hcalls
      have hfor : connectionCallsFor env type config =
          [.createConnection config, .closeConnection (some config.name)] := by
        simp [connectionCallsFor, hd, hc]
      have hself : (processConfig env type queries shouldExport run config).self =
          disconnect env type
            (runQueries env type shouldExport config queries 0
              { run with
                self := { run.self with
                  effects := run.self.effects ++ [.createConnection config]
                  currentConnection := some conn
                  currentConfig := some config }
                logs := run.logs ++ ["Connected to database: " ++ config.name] } []).1.self := by
        simp [processConfig, connect, hd, hc]
      rw [hself, disconnect_inLoop hafter, hfor]
      refine ⟨rfl, rfl, ?_⟩
      simp only [connectionCalls_append, hcalls]
      simp [connectionCalls]

theorem foldl_processConfig_connection (env : Env Row Conn) (type : String)
    (queries : List String) (shouldExport : Bool) (folder : String) (hne : folder ≠ "") :
    ∀ (configs : List ConnectionConfig) (run : Run Row Conn),
      run.self.executionFolder = some folder →
      run.self.currentConnection = none → run.self.currentConfig = none →
      (configs.foldl (processConfig env type queries shouldExport) run).self.currentConnection =
        none ∧
      (configs.foldl (processConfig env type queries shouldExport) run).self.currentConfig =
        none ∧
      connectionCalls
          (configs.foldl (processConfig env type queries shouldExport) run).self.effects =
        connectionCalls run.self.effects ++ configs.flatMap (connectionCallsFor env type) := by
  intro configs
  induction configs with
  | nil => intro run _ hc hg; exact ⟨hc, hg, by simp⟩
  | cons config rest ih =>
    intro run hf hc hg
    obtain ⟨h1, h2, h3⟩ := processConfig_connection env type queries shouldExport run config
      folder hf hne hc hg
    obtain ⟨k1, k2, k3⟩ := ih (processConfig env type queries shouldExport run config)
      (processConfig_frame env type queries shouldExport run config folder hf hne).1 h1 h2
    rw [List.foldl_cons]
    refine ⟨k1, k2, ?_⟩
    rw [k3, h3, List.flatMap_cons, List.append_assoc]

end DatabaseUtils

namespace DatabaseUtils

variable {Row Conn : Type}

/-- The instance after a run that returns: the final writes leave the connection fields
of the loop over the configurations alone and add no connection call. -/
theorem executeQueriesOnAllDbs_state_of_ok (env : Env Row Conn) (dbConfig : DbConfig)
    (st : State Row Conn) (queries : List String) (shouldExport : Bool) (r : RunResult Row)
    (h : (executeQueriesOnAllDbs env dbConfig st queries shouldExport).1 = .ok r) :
    (executeQueriesOnAllDbs env dbConfig st queries shouldExport).2.currentConnection =
      (processConfigs env dbConfig queries shouldExport
        (loopStart env st)).self.currentConnection ∧
    (executeQueriesOnAllDbs env dbConfig st queries shouldExport).2.currentConfig =
      (processConfigs env dbConfig queries shouldExport (loopStart env st)).self.currentConfig ∧
    connectionCalls (executeQueriesOnAllDbs env dbConfig st queries shouldExport).2.effects =
      connectionCalls
        (processConfigs env dbConfig queries shouldExport (loopStart env st)).self.effects := by
  have hfold : (processConfigs env dbConfig queries shouldExport
      (loopStart env st)).self.executionFolder = some (executionFolderPath env) :=
    foldl_processConfig_folder env dbConfig.type queries shouldExport
      (executionFolderPath env) (executionFolderPath_ne_empty env) dbConfig.configs
      (loopStart env st) (loopStart_folder env st)
  cases hmk : createExecutionFolder env st with
  | mk out st1 =>
    unfold executeQueriesOnAllDbs at h ⊢
    rw [hmk] at h ⊢
    have hls : loopStart env st = { self := st1, results := [], counts := [], logs := [] } := by
      simp [loopStart, hmk]
    cases out with
    | error e => simp at h
    | ok folder =>
      simp only at h ⊢
      rw [← hls] at h ⊢
      have hens := ensureExecutionFolder_of_folder env
        (processConfigs env dbConfig queries shouldExport (loopStart env st)).self
        (executionFolderPath env) hfold (executionFolderPath_ne_empty env)
      simp only [writeExecutionLogs, hens] at h ⊢
      cases hw : env.writeFile (pathJoin (executionFolderPath env) "logs.txt")
          (.logs (processConfigs env dbConfig queries shouldExport (loopStart env st)).logs) with
      | error e => simp [hw] at h
      | ok u =>
        simp only [hw, hfold] at h ⊢
        cases hwc : FileUtils.writeCountFile env
            (processConfigs env dbConfig queries shouldExport (loopStart env st)).counts
            (executionFolderPath env) none with
        | mk out2 effects =>
          have heffects : connectionCalls effects = [] := by
            unfold FileUtils.writeCountFile at hwc
            simp only [executionFolderPath_ne_empty env, if_false] at hwc
            split at hwc
            · cases hwc
              simp [connectionCalls]
            · cases hwc
              simp [connectionCalls]
          rw [hwc] at h
          cases out2 with
          | error e => simp at h
          | ok p =>
            refine ⟨rfl, rfl, ?_⟩
            simp only [connectionCalls_append, heffects]
            simp [connectionCalls]

/-! ## Closing a connection has no say -/

theorem driverFor_withClose (env : Env Row Conn) (close : Conn → Except String Unit)
    (type : String) :
    driverFor (withClose env close) type =
      (driverFor env type).map (fun driver => { driver with close := close }) := by
  unfold driverFor withClose
  split_ifs <;> rfl

theorem connect_withClose (env : Env Row Conn) (close : Conn → Except String Unit)
    (type : String) (st : State Row Conn) (config : ConnectionConfig) :
    connect (withClose env close) type st config = connect env type st config := by
  unfold connect
  rw [driverFor_withClose]
  cases driverFor env type <;> rfl

theorem executeQuery_withClose (env : Env Row Conn) (close : Conn → Except String Unit)
    (type : String) (st : State Row Conn) (query : String) :
    executeQuery (withClose env close) type st query = executeQuery env type st query := by
  unfold executeQuery
  rw [driverFor_withClose]
  cases driverFor env type <;> rfl

/-- The method `disconnect` does the same whatever closing the connection returns or
throws. -/
theorem disconnect_withClose (env : Env Row Conn) (close : Conn → Except String Unit)
    (type : String) (st : State Row Conn) :
    disconnect (withClose env close) type st = disconnect env type st := by
  unfold disconnect
  rw [driverFor_withClose]
  cases st.currentConnection with
  | none => rfl
  | some connection =>
    cases driverFor env type with
    | none => rfl
    | some driver =>
      simp only [Option.map_some']
      cases driver.close connection <;> cases close connection <;> rfl

theorem exportToExcel_withClose (env : Env Row Conn) (close : Conn → Except String Unit)
    (st : State Row Conn) (data : QueryOutput Row) (queryIndex : Nat) (dbName : String) :
    exportToExcel (withClose env close) st data queryIndex dbName =
      exportToExcel env st data queryIndex dbName := rfl

theorem runQuery_withClose (env : Env Row Conn) (close : Conn → Except String Unit)
    (type : String) (shouldExport : Bool) (config : ConnectionConfig) (queryIndex : Nat)
    (query : String) (run : Run Row Conn) (dbResults : List (QueryResult Row)) :
    runQuery (withClose env close) type shouldExport config queryIndex query run dbResults =
      runQuery env type shouldExport config queryIndex query run dbResults := by
  unfold runQuery
  simp only [executeQuery_withClose, exportToExcel_withClose]

theorem runQueries_withClose (env : Env Row Conn) (close : Conn → Except String Unit)
    (type : String) (shouldExport : Bool) (config : ConnectionConfig) :
    ∀ (queries : List String) (queryIndex : Nat) (run : Run Row Conn)
      (dbResults : List (QueryResult Row)),
      runQueries (withClose env close) type shouldExport config queries queryIndex run
          dbResults =
        runQueries env type shouldExport config queries queryIndex run dbResults := by
  intro queries
  induction queries with
  | nil => intro _ _ _; rfl
  | cons query rest ih =>
    intro queryIndex run dbResults
    rw [runQueries, runQueries, runQuery_withClose, ih]

theorem processConfig_withClose (env : Env Row Conn) (close : Conn → Except String Unit)
    (type : String) (queries : List String) (shouldExport : Bool) (run : Run Row Conn)
    (config : ConnectionConfig) :
    processConfig (withClose env close) type queries shouldExport run config =
      processConfig env type queries shouldExport run config := by
  unfold processConfig
  simp only [connect_withClose, runQueries_withClose, disconnect_withClose]

theorem executeQueriesOnAllDbs_withClose (env : Env Row Conn)
    (close : Conn → Except String Unit) (dbConfig : DbConfig) (st : State Row Conn)
    (queries : List String) (shouldExport : Bool) :
    executeQueriesOnAllDbs (withClose env close) dbConfig st queries shouldExport =
      executeQueriesOnAllDbs env dbConfig st queries shouldExport := by
  have hfun : processConfig (withClose env close) dbConfig.type queries shouldExport =
      processConfig env dbConfig.type queries shouldExport := by
    funext run config
    exact processConfig_withClose env close dbConfig.type queries shouldExport run config
  have hcreate : createExecutionFolder (withClose env close) st =
      createExecutionFolder env st := rfl
  have hlogs : ∀ (s : State Row Conn) (logs : List String),
      writeExecutionLogs (withClose env close) s logs = writeExecutionLogs env s logs :=
    fun _ _ => rfl
  have hcount : ∀ (counts : Dict (Dict (Option Nat))) (folder : String),
      FileUtils.writeCountFile (withClose env close) counts folder none =
        FileUtils.writeCountFile env counts folder none :=
    fun _ _ => rfl
  unfold executeQueriesOnAllDbs processConfigs
  simp only [hfun, hcreate, hlogs, hcount]

/-! ## The claim on connections -/

/-- C12. In a run that starts with no connection held and returns: when `connect` is
attempted for a configuration, `currentConnection` is null; the connection calls of the
whole run are, configuration by configuration and in order, an attempt followed, exactly
when it succeeded, by the closing of that same configuration, so that a connection is
closed before the next one is attempted whatever the statements did; what closing a
connection returns or throws changes nothing in the run; and after the run
`currentConnection` and `currentConfig` are null. -/
theorem one_connection_at_a_time (env : Env Row Conn) (dbConfig : DbConfig)
    (st : State Row Conn) (queries : List String) (shouldExport : Bool) (r : RunResult Row)
    (hconn : st.currentConnection = none) (hcfg : st.currentConfig = none)
    (hrun : (executeQueriesOnAllDbs env dbConfig st queries shouldExport).1 = .ok r) :
    (∀ (before after : List ConnectionConfig) (config : ConnectionConfig),
      dbConfig.configs = before ++ config :: after →
      (before.foldl (processConfig env dbConfig.type queries shouldExport)
        (loopStart env st)).self.currentConnection = none) ∧
    connectionCalls (executeQueriesOnAllDbs env dbConfig st queries shouldExport).2.effects =
      connectionCalls st.effects ++
        dbConfig.configs.flatMap (connectionCallsFor env dbConfig.type) ∧
    (∀ close : Conn → Except String Unit,
      executeQueriesOnAllDbs (withClose env close) dbConfig st queries shouldExport =
        executeQueriesOnAllDbs env dbConfig st queries shouldExport) ∧
    (executeQueriesOnAllDbs env dbConfig st queries shouldExport).2.currentConnection = none ∧
    (executeQueriesOnAllDbs env dbConfig st queries shouldExport).2.currentConfig = none := by
  have hne := executionFolderPath_ne_empty env
  have hsc : (loopStart env st).self.currentConnection = none := by
    cases h : env.mkdir (executionFolderPath env) <;>
      simp [loopStart, createExecutionFolder, h, hconn]
  have hsg : (loopStart env st).self.currentConfig = none := by
    cases h : env.mkdir (executionFolderPath env) <;>
      simp [loopStart, createExecutionFolder, h, hcfg]
  have hse : connectionCalls (loopStart env st).self.effects = connectionCalls st.effects := by
    rw [loopStart_effects, connectionCalls_append]
    simp [connectionCalls]
  obtain ⟨h1, h2, h3⟩ := executeQueriesOnAllDbs_state_of_ok env dbConfig st queries
    shouldExport r hrun
  obtain ⟨k1, k2, k3⟩ := foldl_processConfig_connection env dbConfig.type queries shouldExport
    (executionFolderPath env) hne dbConfig.configs (loopStart env st)
    (loopStart_folder env st) hsc hsg
  refine ⟨?_, ?_, ?_, ?_, ?_⟩
  · intro before after config _
    exact (foldl_processConfig_connection env dbConfig.type queries shouldExport
      (executionFolderPath env) hne before (loopStart env st) (loopStart_folder env st)
      hsc hsg).1
  · rw [h3]
    show connectionCalls (dbConfig.configs.foldl
      (processConfig env dbConfig.type queries shouldExport) (loopStart env st)).self.effects = _
    rw [k3, hse]
  · intro close
    exact executeQueriesOnAllDbs_withClose env close dbConfig st queries shouldExport
  · rw [h1]; exact k1
  · rw [h2]; exact k2

/-- Witness of C12: three databases of which the second refuses the connection. -/
theorem one_connection_at_a_time_witness :
    ((State.init : State String Nat).currentConnection = none ∧
      (State.init : State String Nat).currentConfig = none) ∧
    connectionCalls (executeQueriesOnAllDbs (Example.env false)
        { type := "mysql"
          configs := [Example.config "a" "3306", Example.config "b" "1",
            Example.config "c" "3306"] }
        State.init ["SELECT 1", "BAD"] false).2.effects =
      [.createConnection (Example.config "a" "3306"), .closeConnection (some "a"),
        .createConnection (Example.config "b" "1"),
        .createConnection (Example.config "c" "3306"), .closeConnection (some "c")] ∧
    (executeQueriesOnAllDbs (Example.env false)
        { type := "mysql"
          configs := [Example.config "a" "3306", Example.config "b" "1",
            Example.config "c" "3306"] }
        State.init ["SELECT 1", "BAD"] false).2.currentConnection = none ∧
    (executeQueriesOnAllDbs (Example.env false)
        { type := "mysql"
          configs := [Example.config "a" "3306", Example.config "b" "1",
            Example.config "c" "3306"] }
        State.init ["SELECT 1", "BAD"] false).2.currentConfig = none :=
  ⟨⟨rfl, rfl⟩,
    (one_connection_at_a_time (Example.env false)
      { type := "mysql"
        configs := [Example.config "a" "3306", Example.config "b" "1",
          Example.config "c" "3306"] }
      State.init ["SELECT 1", "BAD"] false
      { results := [("a", .queries [successEntry 0 "SELECT 1" ["row 1", "row 2"] none,
            failureEntry 1 "BAD" "syntax error"]),
          ("b", .failed "ECONNREFUSED" 0),
          ("c", .queries [successEntry 0 "SELECT 1" ["row 1", "row 2"] none,
            failureEntry 1 "BAD" "syntax error"])]
        counts := [("query_1", [("a", some 2), ("c", some 2)])]
        queryMapping := [("query_1", "SELECT 1"), ("query_2", "BAD")]
        executionFolder :=
          some "/app/utils/../queries-execution/execution on 2024-01-01 (10_00_00 AM)" }
      rfl rfl rfl).2.1,
    (one_connection_at_a_time (Example.env false)
      { type := "mysql"
        configs := [Example.config "a" "3306", Example.config "b" "1",
          Example.config "c" "3306"] }
      State.init ["SELECT 1", "BAD"] false
      { results := [("a", .queries [successEntry 0 "SELECT 1" ["row 1", "row 2"] none,
            failureEntry 1 "BAD" "syntax error"]),
          ("b", .failed "ECONNREFUSED" 0),
          ("c", .queries [successEntry 0 "SELECT 1" ["row 1", "row 2"] none,
            failureEntry 1 "BAD" "syntax error"])]
        counts := [("query_1", [("a", some 2), ("c", some 2)])]
        queryMapping := [("query_1", "SELECT 1"), ("query_2", "BAD")]
        executionFolder :=
          some "/app/utils/../queries-execution/execution on 2024-01-01 (10_00_00 AM)" }
      rfl rfl rfl).2.2.2⟩

end DatabaseUtils
